import Mathlib

/-!
Verification of the `alpaca-options-stream` analytics core against its
natural-language specification.

The C sources are shallowly embedded as follows.

* C `double` values are modelled by the real numbers `ℝ` in the
  Black-Scholes / implied-volatility library (whose semantics is genuinely
  transcendental: `erf`, `exp`, `log`, `sqrt`), and by the rationals `ℚ` in
  the purely arithmetic analyzers (volatility smile, IV-vs-RV), so that the
  latter stay fully executable.
* The C library function `erf` is modelled by its mathematical definition,
  the normalised Gaussian error integral.
* Fixed-capacity C arrays used as associative stores are modelled by lists;
  C strings by `String`; the C `int` flags by `Bool`.
* Loops with an iteration cap are modelled by structurally recursive
  functions on a fuel argument equal to the cap.

Definitions follow the corresponding C functions of `src/black_scholes.c`,
`src/symbol_parser.c`, `src/message_parser.c`, `src/volatility_smile.c` and
`src/realized_vol.c` statement by statement and keep the C names.
-/

open MeasureTheory intervalIntegral

namespace AlpacaOptions

/-! ### Constants from `include/black_scholes.h` -/

/-- `IV_MAX_ITERATIONS` from `black_scholes.h`. -/
def IV_MAX_ITERATIONS : ℕ := 100

/-- `IV_TOLERANCE` from `black_scholes.h` (`1e-6`). -/
noncomputable def IV_TOLERANCE : ℝ := 1e-6

/-- `IV_MIN_VOL` from `black_scholes.h` (`0.001`). -/
noncomputable def IV_MIN_VOL : ℝ := 0.001

/-- `IV_MAX_VOL` from `black_scholes.h` (`5.0`). -/
noncomputable def IV_MAX_VOL : ℝ := 5.0

/-! ### The normal distribution (`standard_normal_cdf`, `standard_normal_pdf`)

`standard_normal_cdf` in `black_scholes.c` is
`0.5 * (1.0 + erf(x / sqrt(2.0)))`, with `erf` the C library error
function; we model `erf` by its mathematical definition. -/

/-- The C library `erf`, modelled mathematically:
`erf x = (2 / √π) · ∫ t in 0..x, exp (-t²)`. -/
noncomputable def erf (x : ℝ) : ℝ :=
  (2 / Real.sqrt Real.pi) * ∫ t in (0:ℝ)..x, Real.exp (-(t ^ 2))

/-- `standard_normal_cdf` from `black_scholes.c`. -/
noncomputable def standard_normal_cdf (x : ℝ) : ℝ :=
  0.5 * (1.0 + erf (x / Real.sqrt 2.0))

/-- `standard_normal_pdf` from `black_scholes.c`. -/
noncomputable def standard_normal_pdf (x : ℝ) : ℝ :=
  (1.0 / Real.sqrt (2.0 * Real.pi)) * Real.exp (-0.5 * x * x)

/-! ### d1 / d2 and pricing (`black_scholes.c`) -/

/-- `calculate_d1` from `black_scholes.c`. -/
noncomputable def calculate_d1 (S K T r sigma : ℝ) : ℝ :=
  if T ≤ 0 ∨ sigma ≤ 0 then 0
  else (Real.log (S / K) + (r + 0.5 * sigma * sigma) * T) / (sigma * Real.sqrt T)

/-- `calculate_d2` from `black_scholes.c`. -/
noncomputable def calculate_d2 (S K T r sigma : ℝ) : ℝ :=
  if T ≤ 0 ∨ sigma ≤ 0 then 0
  else calculate_d1 S K T r sigma - sigma * Real.sqrt T

/-- `bs_call_price` from `black_scholes.c`. -/
noncomputable def bs_call_price (S K T r sigma : ℝ) : ℝ :=
  if T ≤ 0 then max (S - K) 0
  else if sigma ≤ 0 then max (S - K * Real.exp (-r * T)) 0
  else S * standard_normal_cdf (calculate_d1 S K T r sigma) -
    K * Real.exp (-r * T) * standard_normal_cdf (calculate_d2 S K T r sigma)

/-- `bs_put_price` from `black_scholes.c`. -/
noncomputable def bs_put_price (S K T r sigma : ℝ) : ℝ :=
  if T ≤ 0 then max (K - S) 0
  else if sigma ≤ 0 then max (K * Real.exp (-r * T) - S) 0
  else K * Real.exp (-r * T) * standard_normal_cdf (-(calculate_d2 S K T r sigma)) -
    S * standard_normal_cdf (-(calculate_d1 S K T r sigma))

/-! ### Greeks (`black_scholes.c`) -/

/-- `bs_delta_call` from `black_scholes.c`. -/
noncomputable def bs_delta_call (S K T r sigma : ℝ) : ℝ :=
  if T ≤ 0 then (if S > K then 1 else 0)
  else if sigma ≤ 0 then (if S > K * Real.exp (-r * T) then 1 else 0)
  else standard_normal_cdf (calculate_d1 S K T r sigma)

/-- `bs_delta_put` from `black_scholes.c`. -/
noncomputable def bs_delta_put (S K T r sigma : ℝ) : ℝ :=
  if T ≤ 0 then (if S < K then -1 else 0)
  else if sigma ≤ 0 then (if S < K * Real.exp (-r * T) then -1 else 0)
  else standard_normal_cdf (calculate_d1 S K T r sigma) - 1

/-- `bs_gamma` from `black_scholes.c`. -/
noncomputable def bs_gamma (S K T r sigma : ℝ) : ℝ :=
  if T ≤ 0 ∨ sigma ≤ 0 then 0
  else standard_normal_pdf (calculate_d1 S K T r sigma) / (S * sigma * Real.sqrt T)

/-- `bs_theta_call` from `black_scholes.c`. -/
noncomputable def bs_theta_call (S K T r sigma : ℝ) : ℝ :=
  if T ≤ 0 then 0
  else if sigma ≤ 0 then (if S > K * Real.exp (-r * T) then r * K * Real.exp (-r * T) else 0)
  else
    -(S * standard_normal_pdf (calculate_d1 S K T r sigma) * sigma) / (2 * Real.sqrt T) +
      -(r * K * Real.exp (-r * T) * standard_normal_cdf (calculate_d2 S K T r sigma))

/-- `bs_theta_put` from `black_scholes.c`. -/
noncomputable def bs_theta_put (S K T r sigma : ℝ) : ℝ :=
  if T ≤ 0 then 0
  else if sigma ≤ 0 then (if S < K * Real.exp (-r * T) then -(r * K * Real.exp (-r * T)) else 0)
  else
    -(S * standard_normal_pdf (calculate_d1 S K T r sigma) * sigma) / (2 * Real.sqrt T) +
      r * K * Real.exp (-r * T) * standard_normal_cdf (-(calculate_d2 S K T r sigma))

/-- `bs_vega` from `black_scholes.c`. -/
noncomputable def bs_vega (S K T r sigma : ℝ) : ℝ :=
  if T ≤ 0 ∨ sigma ≤ 0 then 0
  else S * standard_normal_pdf (calculate_d1 S K T r sigma) * Real.sqrt T

/-- `bs_rho_call` from `black_scholes.c`. -/
noncomputable def bs_rho_call (S K T r sigma : ℝ) : ℝ :=
  if T ≤ 0 then 0
  else if sigma ≤ 0 then (if S > K * Real.exp (-r * T) then K * T * Real.exp (-r * T) else 0)
  else K * T * Real.exp (-r * T) * standard_normal_cdf (calculate_d2 S K T r sigma)

/-- `bs_rho_put` from `black_scholes.c`. -/
noncomputable def bs_rho_put (S K T r sigma : ℝ) : ℝ :=
  if T ≤ 0 then 0
  else if sigma ≤ 0 then (if S < K * Real.exp (-r * T) then -(K * T * Real.exp (-r * T)) else 0)
  else -(K * T * Real.exp (-r * T)) * standard_normal_cdf (-(calculate_d2 S K T r sigma))

/-- `bs_vanna` from `black_scholes.c` (recomputes d1/d2 inline, zero guard
also on `S ≤ 0`). -/
noncomputable def bs_vanna (S K T r sigma : ℝ) : ℝ :=
  if T ≤ 0 ∨ sigma ≤ 0 ∨ S ≤ 0 then 0
  else
    let d1 := (Real.log (S / K) + (r + 0.5 * sigma * sigma) * T) / (sigma * Real.sqrt T)
    let d2 := d1 - sigma * Real.sqrt T
    let vega := S * standard_normal_pdf d1 * Real.sqrt T
    let vanna := -vega * d2 / sigma
    vanna

/-- `bs_charm_call` from `black_scholes.c`. -/
noncomputable def bs_charm_call (S K T r sigma : ℝ) : ℝ :=
  if T ≤ 0 ∨ sigma ≤ 0 ∨ S ≤ 0 then 0
  else
    let d1 := (Real.log (S / K) + (r + 0.5 * sigma * sigma) * T) / (sigma * Real.sqrt T)
    let d2 := d1 - sigma * Real.sqrt T
    let charm := -(standard_normal_pdf d1) * (2 * r * T - d2 * sigma * Real.sqrt T) /
      (2 * T * sigma * Real.sqrt T)
    charm

/-- `bs_charm_put` from `black_scholes.c`. -/
noncomputable def bs_charm_put (S K T r sigma : ℝ) : ℝ :=
  if T ≤ 0 ∨ sigma ≤ 0 ∨ S ≤ 0 then 0
  else
    let d1 := (Real.log (S / K) + (r + 0.5 * sigma * sigma) * T) / (sigma * Real.sqrt T)
    let d2 := d1 - sigma * Real.sqrt T
    let charm := -(standard_normal_pdf d1) * (2 * r * T - d2 * sigma * Real.sqrt T) /
        (2 * T * sigma * Real.sqrt T) -
      r * Real.exp (-r * T)
    charm

/-- `bs_volga` from `black_scholes.c`. -/
noncomputable def bs_volga (S K T r sigma : ℝ) : ℝ :=
  if T ≤ 0 ∨ sigma ≤ 0 ∨ S ≤ 0 then 0
  else
    let d1 := (Real.log (S / K) + (r + 0.5 * sigma * sigma) * T) / (sigma * Real.sqrt T)
    let d2 := d1 - sigma * Real.sqrt T
    let vega := S * standard_normal_pdf d1 * Real.sqrt T
    vega * d1 * d2 / sigma

/-- `bs_speed` from `black_scholes.c`. -/
noncomputable def bs_speed (S K T r sigma : ℝ) : ℝ :=
  if T ≤ 0 ∨ sigma ≤ 0 ∨ S ≤ 0 then 0
  else
    let d1 := (Real.log (S / K) + (r + 0.5 * sigma * sigma) * T) / (sigma * Real.sqrt T)
    let gamma := standard_normal_pdf d1 / (S * sigma * Real.sqrt T)
    let speed := -gamma / S * (d1 / (sigma * Real.sqrt T) + 1)
    speed

/-- `bs_zomma` from `black_scholes.c`. -/
noncomputable def bs_zomma (S K T r sigma : ℝ) : ℝ :=
  if T ≤ 0 ∨ sigma ≤ 0 ∨ S ≤ 0 then 0
  else
    let d1 := (Real.log (S / K) + (r + 0.5 * sigma * sigma) * T) / (sigma * Real.sqrt T)
    let d2 := d1 - sigma * Real.sqrt T
    let gamma := standard_normal_pdf d1 / (S * sigma * Real.sqrt T)
    gamma * (d1 * d2 - 1) / sigma

/-- `bs_color_call` from `black_scholes.c`. -/
noncomputable def bs_color_call (S K T r sigma : ℝ) : ℝ :=
  if T ≤ 0 ∨ sigma ≤ 0 ∨ S ≤ 0 then 0
  else
    let d1 := (Real.log (S / K) + (r + 0.5 * sigma * sigma) * T) / (sigma * Real.sqrt T)
    let d2 := d1 - sigma * Real.sqrt T
    let term1 := -(standard_normal_pdf d1) / (2 * S * T * sigma * Real.sqrt T)
    let term2 := 2 * r * T + 1
    let term3 := d1 * (2 * r * T - d2 * sigma * Real.sqrt T) / (sigma * Real.sqrt T)
    term1 * (term2 + term3)

/-- `bs_color_put` from `black_scholes.c` (delegates to the call version). -/
noncomputable def bs_color_put (S K T r sigma : ℝ) : ℝ :=
  if T ≤ 0 ∨ sigma ≤ 0 ∨ S ≤ 0 then 0
  else bs_color_call S K T r sigma

/-! ### Implied volatility solver (`black_scholes.c`) -/

/-- `iv_corrado_miller_guess` from `black_scholes.c` (the `is_call`
parameter is explicitly unused in the source). -/
noncomputable def iv_corrado_miller_guess (option_price S K T r : ℝ) : ℝ :=
  let sqrt_T := Real.sqrt T
  let sqrt_2pi := Real.sqrt (2 * Real.pi)
  let df := Real.exp (-r * T)
  let F := S / df
  let x := Real.log (F / K)
  let n1 := sqrt_2pi / sqrt_T
  let n2 := option_price - 0.5 * |F - K|
  let n3 := (F + K) / 2
  let guess := n1 * n2 / n3
  let correction := Real.sqrt (guess ^ 2 + 2 * |x| / sqrt_T)
  max correction IV_MIN_VOL

/-- One C `while` pass of the bisection loop of
`implied_volatility_bisection`; the fuel argument counts the remaining
iterations out of `IV_MAX_ITERATIONS`.  The loop exits returning
`(vol_low + vol_high) / 2` when the fuel (iteration cap) is exhausted or
the bracket is no wider than `IV_TOLERANCE`. -/
noncomputable def bisection_loop (option_price S K T r : ℝ) (is_call : Bool) :
    ℕ → ℝ → ℝ → ℝ
  | 0, vol_low, vol_high => (vol_low + vol_high) / 2
  | fuel + 1, vol_low, vol_high =>
    if ¬(vol_high - vol_low > IV_TOLERANCE) then (vol_low + vol_high) / 2
    else
      let vol_mid := (vol_low + vol_high) / 2
      let price_mid := if is_call then bs_call_price S K T r vol_mid
        else bs_put_price S K T r vol_mid
      if |price_mid - option_price| < IV_TOLERANCE then vol_mid
      else if price_mid < option_price then
        bisection_loop option_price S K T r is_call fuel vol_mid vol_high
      else
        bisection_loop option_price S K T r is_call fuel vol_low vol_mid

/-- `implied_volatility_bisection` from `black_scholes.c`. -/
noncomputable def implied_volatility_bisection (option_price S K T r : ℝ)
    (is_call : Bool) : ℝ :=
  let vol_low := IV_MIN_VOL
  let vol_high := IV_MAX_VOL
  let price_low := if is_call then bs_call_price S K T r vol_low
    else bs_put_price S K T r vol_low
  let price_high := if is_call then bs_call_price S K T r vol_high
    else bs_put_price S K T r vol_high
  if option_price < price_low then vol_low
  else if option_price > price_high then vol_high
  else bisection_loop option_price S K T r is_call IV_MAX_ITERATIONS vol_low vol_high

/-- The Newton-Raphson `while` loop of `implied_volatility`.  The result is
the final `vol` together with `true` when the loop ran out of iterations
(the C post-loop test `iterations >= IV_MAX_ITERATIONS`), `false` when it
left through one of the two `break`s. -/
noncomputable def newton_loop (option_price S K T r : ℝ) (is_call : Bool) :
    ℕ → ℝ → ℝ × Bool
  | 0, vol => (vol, true)
  | fuel + 1, vol =>
    let theoretical_price := if is_call then bs_call_price S K T r vol
      else bs_put_price S K T r vol
    let current_vega := bs_vega S K T r vol
    let price_diff := theoretical_price - option_price
    if |price_diff| < IV_TOLERANCE ∨ current_vega < 1e-10 then (vol, false)
    else
      let vol_new := max (min (vol - price_diff / current_vega) IV_MAX_VOL) IV_MIN_VOL
      if |vol_new - vol| < IV_TOLERANCE then (vol_new, false)
      else newton_loop option_price S K T r is_call fuel vol_new

/-- `implied_volatility` from `black_scholes.c`: guards, intrinsic-value
check, clamped Corrado-Miller seed, Newton-Raphson loop, and the bisection
fallback taken exactly when the loop exhausted its iteration cap. -/
noncomputable def implied_volatility (option_price S K T r : ℝ) (is_call : Bool) : ℝ :=
  if option_price ≤ 0 ∨ S ≤ 0 ∨ K ≤ 0 ∨ T ≤ 0 then 0
  else
    let intrinsic := if is_call then max (S - K) 0 else max (K - S) 0
    if option_price ≤ intrinsic + 1e-6 then IV_MIN_VOL
    else
      let vol := max (min (iv_corrado_miller_guess option_price S K T r)
        (IV_MAX_VOL * 0.5)) IV_MIN_VOL
      let out := newton_loop option_price S K T r is_call IV_MAX_ITERATIONS vol
      if out.2 then implied_volatility_bisection option_price S K T r is_call
      else out.1

/-! ### `calculate_full_bs_metrics` (`black_scholes.c`) -/

/-- `bs_result_t` from `include/black_scholes.h` (the C `int` flag
`iv_converged` is modelled by `Bool`). -/
structure bs_result_t where
  call_price : ℝ
  put_price : ℝ
  delta : ℝ
  gamma : ℝ
  theta : ℝ
  vega : ℝ
  rho : ℝ
  implied_vol : ℝ
  iv_converged : Bool
  vanna : ℝ
  charm : ℝ
  volga : ℝ
  speed : ℝ
  zomma : ℝ
  color : ℝ

/-- `calculate_full_bs_metrics` from `black_scholes.c`. -/
noncomputable def calculate_full_bs_metrics (S K T r market_price : ℝ)
    (is_call : Bool) : bs_result_t :=
  let implied_vol := implied_volatility market_price S K T r is_call
  let sigma := implied_vol
  { implied_vol := implied_vol
    iv_converged := if IV_MIN_VOL < implied_vol ∧ implied_vol < IV_MAX_VOL then true else false
    call_price := bs_call_price S K T r sigma
    put_price := bs_put_price S K T r sigma
    delta := if is_call then bs_delta_call S K T r sigma else bs_delta_put S K T r sigma
    gamma := bs_gamma S K T r sigma
    theta := if is_call then bs_theta_call S K T r sigma else bs_theta_put S K T r sigma
    vega := bs_vega S K T r sigma
    rho := if is_call then bs_rho_call S K T r sigma else bs_rho_put S K T r sigma
    vanna := bs_vanna S K T r sigma
    charm := if is_call then bs_charm_call S K T r sigma else bs_charm_put S K T r sigma
    volga := bs_volga S K T r sigma
    speed := bs_speed S K T r sigma
    zomma := bs_zomma S K T r sigma
    color := if is_call then bs_color_call S K T r sigma else bs_color_put S K T r sigma }

/-! ### Symbol codec (`symbol_parser.c`)

C strings are modelled by `String` via their character lists; the fixed
output buffer of `parse_option_symbol` is modelled by its resulting C
string contents. -/

/-- The anchor test of the two scan loops in `symbol_parser.c`: at index
`i`, six digits (YYMMDD), then `C` or `P`, then a further digit, with the
C bound check `i + 14 < len` kept as in the source. -/
def anchor_at (cs : List Char) (i : ℕ) : Bool :=
  i + 14 < cs.length &&
  (cs.getD i ' ').isDigit && (cs.getD (i + 1) ' ').isDigit &&
  (cs.getD (i + 2) ' ').isDigit && (cs.getD (i + 3) ' ').isDigit &&
  (cs.getD (i + 4) ' ').isDigit && (cs.getD (i + 5) ' ').isDigit &&
  (cs.getD (i + 6) ' ' == 'C' || cs.getD (i + 6) ' ' == 'P') &&
  (cs.getD (i + 7) ' ').isDigit

/-- The scan `for (i = 1; i <= len - 15; i++)` of `symbol_parser.c`,
returning the first anchor position; `fuel` is the number of remaining
loop iterations. -/
def anchor_scan (cs : List Char) : ℕ → ℕ → Option ℕ
  | _, 0 => none
  | i, fuel + 1 => if anchor_at cs i then some i else anchor_scan cs (i + 1) fuel

/-- The `date_start` search shared by `parse_option_symbol` and
`parse_option_details`: for a symbol of length ≥ 15, scan indices
`1 .. len - 15` (note that a length-15 symbol is never scanned, exactly as
in the C loop bounds). -/
def find_date_start (cs : List Char) : Option ℕ :=
  if cs.length < 15 then none else anchor_scan cs 1 (cs.length - 15)

/-- The C `atoi` on the extracted strike digits: value of the leading run
of decimal digits (the first character is guaranteed to be a digit by the
anchor test). -/
def atoi_digits : List Char → ℕ
  | [] => 0
  | c :: rest => if c.isDigit then
      (atoi_digits_aux rest (c.toNat - '0'.toNat))
    else 0
where
  /-- Accumulating helper for `atoi_digits`. -/
  atoi_digits_aux : List Char → ℕ → ℕ
  | [], acc => acc
  | c :: rest, acc =>
    if c.isDigit then atoi_digits_aux rest (acc * 10 + (c.toNat - '0'.toNat)) else acc

/-- `option_details_t` from `include/symbol_parser.h`; `is_valid = 0` is
modelled by `parse_option_details` returning `none`. -/
structure option_details_t where
  underlying : String
  expiry_date : String
  option_type : Char
  strike : ℚ
deriving DecidableEq

/-- `parse_option_details` from `symbol_parser.c` (the `underlying` copy is
truncated to the 15 characters that fit its 16-byte C buffer). -/
def parse_option_details (symbol : String) : Option option_details_t :=
  let cs := symbol.toList
  match find_date_start cs with
  | none => none
  | some i =>
    let underlying_len := min i 15
    some
      { underlying := String.mk ((cs.take i).take underlying_len)
        expiry_date := String.mk ((cs.drop i).take 6)
        option_type := cs.getD (i + 6) ' '
        strike := (atoi_digits ((cs.drop (i + 7)).take 8) : ℚ) / 1000 }

/-- Rendering of the strike with two decimals, modelling
`snprintf("%.2f", strike)` where `strike = atoi(strike8) / 1000.0`.
The thousandths digit is rounded half away from zero; tie cases of the
binary `double` rounding are not distinguishable at the claims proved
here, which never exercise the formatted branch. -/
def format_strike_2dec (milli : ℕ) : String :=
  let cents := (milli + 5) / 10
  toString (cents / 100) ++ "." ++
    (if cents % 100 < 10 then "0" else "") ++ toString (cents % 100)

/-- `parse_option_symbol` from `symbol_parser.c`: the contents of the
output buffer as a C string (`none` when the buffer has size 0 and is left
untouched).  All three failure paths (`readable_size < 64`, length < 15, no
anchor) copy the input symbol truncated to `readable_size - 1` characters. -/
def parse_option_symbol (symbol : String) (readable_size : ℕ) : Option String :=
  if readable_size < 64 then
    if readable_size > 0 then some (String.mk (symbol.toList.take (readable_size - 1)))
    else none
  else
    let cs := symbol.toList
    match find_date_start cs with
    | none => some (String.mk (cs.take (readable_size - 1)))
    | some i =>
      let underlying := String.mk (cs.take i)
      let year_str := String.mk ((cs.drop i).take 2)
      let month_str := String.mk ((cs.drop (i + 2)).take 2)
      let day_str := String.mk ((cs.drop (i + 4)).take 2)
      let option_type := cs.getD (i + 6) ' '
      let strike_milli := atoi_digits ((cs.drop (i + 7)).take 8)
      let rendered := underlying ++ " " ++ month_str ++ "/" ++ day_str ++ "/" ++
        year_str ++ " $" ++ format_strike_2dec strike_milli ++ " " ++
        (if option_type == 'C' then "Call" else "Put")
      some (String.mk (rendered.toList.take (readable_size - 1)))

/-! ### Options table and message handling (`message_parser.c`)

The options table `option_data[MAX_SYMBOLS]` with its count is modelled by
a list of rows; the static per-index array `last_calc_time[MAX_SYMBOLS]`
by a function `ℕ → ℤ` (milliseconds, initialised to zero); the monotonic
clock reading, the underlying spot returned by `get_underlying_price` and
the value of `time_to_expiry_years` (both depending on external state:
the stock websocket cache and the wall clock) are inputs carried by each
event. -/

/-- `MAX_SYMBOLS` from `include/types.h`. -/
def MAX_SYMBOLS : ℕ := 100

/-- The all-zero `bs_result_t` produced by `memset(new_data, 0, ...)`. -/
def bs_result_zero : bs_result_t :=
  { call_price := 0, put_price := 0, delta := 0, gamma := 0, theta := 0
    vega := 0, rho := 0, implied_vol := 0, iv_converged := false
    vanna := 0, charm := 0, volga := 0, speed := 0, zomma := 0, color := 0 }

/-- `option_data_t` from `include/types.h`.  The `prev_*` fields used only
by the display renderer (never touched by the parser or analytics paths
modelled here) are omitted. -/
structure option_data_t where
  symbol : String
  bid_price : ℝ
  bid_size : ℤ
  bid_exchange : String
  ask_price : ℝ
  ask_size : ℤ
  ask_exchange : String
  quote_time : String
  quote_condition : String
  has_quote : Bool
  last_price : ℝ
  last_size : ℤ
  trade_exchange : String
  trade_time : String
  trade_condition : String
  has_trade : Bool
  bs_analytics : bs_result_t
  underlying_price : ℝ
  strike : ℝ
  time_to_expiry : ℝ
  is_call : Bool
  analytics_valid : Bool

/-- A fresh zeroed row with its symbol copied in, as created by
`find_or_create_option_data`. -/
def option_data_zero (symbol : String) : option_data_t :=
  { symbol := symbol
    bid_price := 0, bid_size := 0, bid_exchange := "", ask_price := 0, ask_size := 0
    ask_exchange := "", quote_time := "", quote_condition := "", has_quote := false
    last_price := 0, last_size := 0, trade_exchange := "", trade_time := ""
    trade_condition := "", has_trade := false
    bs_analytics := bs_result_zero
    underlying_price := 0, strike := 0, time_to_expiry := 0
    is_call := false, analytics_valid := false }

/-- The coordinator state relevant to the options table: the table rows in
insertion order, the static `last_calc_time` array, and the risk-free rate
used for analytics. -/
structure alpaca_client_t where
  option_data : List option_data_t
  last_calc_time : ℕ → ℤ
  risk_free_rate : ℝ

/-- Replace the element at an index of a list, leaving the list unchanged
when the index is out of range. -/
def list_modify (f : α → α) : ℕ → List α → List α
  | _, [] => []
  | 0, a :: l => f a :: l
  | n + 1, a :: l => a :: list_modify f n l

/-- The linear symbol scan shared by `find_or_create_option_data` and the
throttle block of `calculate_option_analytics`: index of the first row
whose symbol equals `symbol`. -/
def find_symbol_idx (symbol : String) : List option_data_t → Option ℕ
  | [] => none
  | d :: l =>
    if d.symbol == symbol then some 0
    else (find_symbol_idx symbol l).map (· + 1)

/-- `find_or_create_option_data` from `message_parser.c`: index of the
existing row, or a fresh zeroed row appended when fewer than `MAX_SYMBOLS`
rows exist; `none` models the C `NULL` on a full table. -/
def find_or_create_option_data (symbol : String) (client : alpaca_client_t) :
    Option (ℕ × alpaca_client_t) :=
  match find_symbol_idx symbol client.option_data with
  | some i => some (i, client)
  | none =>
    if client.option_data.length < MAX_SYMBOLS then
      some (client.option_data.length,
        { client with option_data := client.option_data ++ [option_data_zero symbol] })
    else none

/-- The external inputs consumed by one analytics pass: the
`CLOCK_MONOTONIC` reading in milliseconds, the spot returned by
`get_underlying_price` and the value computed by `time_to_expiry_years`. -/
structure analytics_env_t where
  now_ms : ℤ
  underlying_price : ℝ
  time_to_expiry : ℝ

/-- The per-row tail of `calculate_option_analytics` (everything after the
throttle block): symbol parse, spot and expiry guards, reference-price
choice, and on success the input fields plus `calculate_full_bs_metrics`
with `analytics_valid` set. -/
noncomputable def analytics_row_update (env : analytics_env_t) (risk_free_rate : ℝ)
    (data : option_data_t) : option_data_t :=
  match parse_option_details data.symbol with
  | none => { data with analytics_valid := false }
  | some details =>
    if env.underlying_price ≤ 0 then { data with analytics_valid := false }
    else if env.time_to_expiry ≤ 0 then { data with analytics_valid := false }
    else
      let option_price : Option ℝ :=
        if data.has_trade ∧ data.last_price > 0 then some data.last_price
        else if data.has_quote ∧ data.bid_price > 0 ∧ data.ask_price > 0 then
          some ((data.bid_price + data.ask_price) / 2)
        else none
      match option_price with
      | none => { data with analytics_valid := false }
      | some price =>
        let is_call := details.option_type == 'C'
        { data with
            strike := (details.strike : ℝ)
            underlying_price := env.underlying_price
            time_to_expiry := env.time_to_expiry
            is_call := is_call
            bs_analytics := calculate_full_bs_metrics env.underlying_price
              (details.strike : ℝ) env.time_to_expiry risk_free_rate price is_call
            analytics_valid := true }

/-- `calculate_option_analytics` from `message_parser.c`, acting on the row
at index `idx`: the throttle block (skip everything when fewer than 100 ms
have elapsed on the monotonic clock since the row's last analytics pass,
otherwise stamp `last_calc_time` first), then `analytics_row_update`. -/
noncomputable def calculate_option_analytics (client : alpaca_client_t) (idx : ℕ)
    (env : analytics_env_t) : alpaca_client_t :=
  let symbol := (client.option_data.getD idx (option_data_zero "")).symbol
  match find_symbol_idx symbol client.option_data with
  | some symbol_idx =>
    if env.now_ms - client.last_calc_time symbol_idx < 100 then client
    else
      let client := { client with
        last_calc_time := Function.update client.last_calc_time symbol_idx env.now_ms }
      { client with
          option_data := list_modify (analytics_row_update env client.risk_free_rate)
            idx client.option_data }
  | none =>
    { client with
        option_data := list_modify (analytics_row_update env client.risk_free_rate)
          idx client.option_data }

/-- One decoded inbound message, as extracted from the msgpack maps by
`parse_option_trade` / `parse_option_quote`, together with the external
inputs of the analytics pass it triggers. -/
inductive msg_event_t where
  | trade (symbol : String) (price : ℝ) (size : ℤ)
      (exchange timestamp condition : String) (env : analytics_env_t)
  | quote (symbol : String) (bid_price : ℝ) (bid_size : ℤ) (bid_exchange : String)
      (ask_price : ℝ) (ask_size : ℤ) (ask_exchange : String)
      (timestamp condition : String) (env : analytics_env_t)

/-- The symbol carried by an event. -/
def msg_event_t.symbol : msg_event_t → String
  | .trade s _ _ _ _ _ _ => s
  | .quote s _ _ _ _ _ _ _ _ _ => s

/-- The environment carried by an event. -/
def msg_event_t.env : msg_event_t → analytics_env_t
  | .trade _ _ _ _ _ _ e => e
  | .quote _ _ _ _ _ _ _ _ _ e => e

/-- The field overwrite performed on the found-or-created row: the trade
slice for `parse_option_trade`, the quote slice for `parse_option_quote`
(with `has_trade` / `has_quote` set). -/
def msg_event_t.upsert : msg_event_t → option_data_t → option_data_t
  | .trade _ price size exchange timestamp condition _, data =>
    { data with
        last_price := price
        last_size := size
        trade_exchange := exchange
        trade_time := timestamp
        trade_condition := condition
        has_trade := true }
  | .quote _ bp bsz bx ap asz ax timestamp condition _, data =>
    { data with
        bid_price := bp
        bid_size := bsz
        bid_exchange := bx
        ask_price := ap
        ask_size := asz
        ask_exchange := ax
        quote_time := timestamp
        quote_condition := condition
        has_quote := true }

/-- `parse_option_trade` / `parse_option_quote` from `message_parser.c`
after msgpack field extraction: under the table mutex, find-or-create the
row (dropping the message when the table is full), overwrite the trade or
quote slice, and run `calculate_option_analytics` on it.  Messages whose
symbol is empty are ignored (`strlen(symbol) > 0`). -/
noncomputable def process_event (client : alpaca_client_t) (e : msg_event_t) :
    alpaca_client_t :=
  if e.symbol.length > 0 then
    match find_or_create_option_data e.symbol client with
    | none => client
    | some (idx, client) =>
      let client := { client with option_data := list_modify e.upsert idx client.option_data }
      calculate_option_analytics client idx e.env
  else client

/-- A freshly initialised client: empty table, zeroed
`last_calc_time[MAX_SYMBOLS]`. -/
def client_init (risk_free_rate : ℝ) : alpaca_client_t :=
  { option_data := [], last_calc_time := fun _ => 0, risk_free_rate := risk_free_rate }

/-- The table state after a sequence of trade/quote messages. -/
noncomputable def run_events (risk_free_rate : ℝ) (events : List msg_event_t) :
    alpaca_client_t :=
  events.foldl process_event (client_init risk_free_rate)

/-- The row invariant of §8 of the specification: a row with valid
analytics has a non-negative time to expiry, a positive underlying price,
and at least one of the trade / quote slices present. -/
def row_invariant (d : option_data_t) : Prop :=
  d.analytics_valid = true →
    0 ≤ d.time_to_expiry ∧ 0 < d.underlying_price ∧
      (d.has_trade = true ∨ d.has_quote = true)

/-- The table invariant: every row satisfies `row_invariant`. -/
def table_invariant (client : alpaca_client_t) : Prop :=
  ∀ d ∈ client.option_data, row_invariant d

/-! ### Volatility smile analyzer (`volatility_smile.c`)

The smile computations are plain rational arithmetic except for the linear
fit `r_squared` (which needs `log` and `sqrt` and is therefore valued in
`ℝ`); points and derived metrics are modelled over `ℚ` so that concrete
smiles evaluate by `decide`. -/

/-- `MIN_SMILE_POINTS` from `include/volatility_smile.h`. -/
def MIN_SMILE_POINTS : ℕ := 3

/-- `SKEW_THRESHOLD` from `include/volatility_smile.h` (`0.02`). -/
def SKEW_THRESHOLD : ℚ := 0.02

/-- `SMILE_THRESHOLD` from `include/volatility_smile.h` (`0.01`). -/
def SMILE_THRESHOLD : ℚ := 0.01

/-- `smile_point_t` from `include/volatility_smile.h`. -/
structure smile_point_t where
  strike : ℚ
  implied_vol : ℚ
  moneyness : ℚ
  time_to_expiry : ℚ
  option_type : Char
  data_quality : Bool
deriving DecidableEq

/-- Zero smile point (out-of-range index default). -/
def smile_point_zero : smile_point_t :=
  { strike := 0, implied_vol := 0, moneyness := 0, time_to_expiry := 0
    option_type := ' ', data_quality := false }

/-- `volatility_smile_t` from `include/volatility_smile.h` (`point_count`
is the length of `points`; `last_update` is omitted). -/
structure volatility_smile_t where
  underlying : String
  expiry_date : String
  time_to_expiry : ℚ
  underlying_price : ℚ
  points : List smile_point_t
  atm_vol : ℚ
  put_skew : ℚ
  call_skew : ℚ
  smile_curvature : ℚ
  min_vol : ℚ
  max_vol : ℚ
  r_squared : ℝ
  has_put_skew : Bool
  has_call_skew : Bool
  has_smile : Bool
  is_inverted : Bool
  sufficient_data : Bool

/-- Tail of one bubble pass: `a` is the element currently being carried
forward. -/
def bubble_pass_aux (a : smile_point_t) : List smile_point_t → List smile_point_t
  | [] => [a]
  | b :: rest =>
    if a.strike > b.strike then b :: bubble_pass_aux a rest
    else a :: bubble_pass_aux b rest

/-- One full pass of the inner loop of the bubble sort
`sort_smile_points_by_strike`, swapping adjacent out-of-order points. -/
def bubble_pass : List smile_point_t → List smile_point_t
  | [] => []
  | a :: rest => bubble_pass_aux a rest

/-- Iterated bubble passes. -/
def bubble_iter : ℕ → List smile_point_t → List smile_point_t
  | 0, l => l
  | n + 1, l => bubble_iter n (bubble_pass l)

/-- `sort_smile_points_by_strike` from `volatility_smile.c`: the `count`
outer passes of the bubble sort. -/
def sort_smile_points_by_strike (points : List smile_point_t) : List smile_point_t :=
  bubble_iter points.length points

/-- Scan helper of `best_atm_idx`, carrying the current index, the best
index so far, and the best distance so far (strict improvement keeps the
first minimiser, as in the C loop). -/
def best_atm_idx_aux : List smile_point_t → ℕ → ℕ → ℚ → ℕ
  | [], _, best_idx, _ => best_idx
  | p :: rest, i, best_idx, best_diff =>
    let diff := |p.moneyness - 1|
    if diff < best_diff then best_atm_idx_aux rest (i + 1) i diff
    else best_atm_idx_aux rest (i + 1) best_idx best_diff

/-- The best-approach index scan of `interpolate_atm_vol`: index of the
first point whose moneyness is closest to 1, scanning from index 1. -/
def best_atm_idx (points : List smile_point_t) : ℕ :=
  match points with
  | [] => 0
  | p0 :: rest => best_atm_idx_aux rest 1 0 |p0.moneyness - 1|

/-- `interpolate_atm_vol` from `volatility_smile.c` (the
`underlying_price` parameter is unused in the source body). -/
def interpolate_atm_vol (points : List smile_point_t) (underlying_price : ℚ) : ℚ :=
  if points.length < 2 then 0
  else
    let best_idx := best_atm_idx points
    let best_diff := |(points.getD best_idx smile_point_zero).moneyness - 1|
    if best_diff < 0.01 then (points.getD best_idx smile_point_zero).implied_vol
    else if 0 < best_idx ∧ best_idx < points.length - 1 then
      let x0 := (points.getD (best_idx - 1) smile_point_zero).moneyness
      let x1 := (points.getD (best_idx + 1) smile_point_zero).moneyness
      let y0 := (points.getD (best_idx - 1) smile_point_zero).implied_vol
      let y1 := (points.getD (best_idx + 1) smile_point_zero).implied_vol
      let t := (1 - x0) / (x1 - x0)
      y0 + t * (y1 - y0)
    else (points.getD best_idx smile_point_zero).implied_vol

/-- `polynomial_fit_r_squared` from `volatility_smile.c`: R² of the linear
fit of implied vol against `log moneyness` (real-valued: it takes
logarithms). -/
noncomputable def polynomial_fit_r_squared (points : List smile_point_t) : ℝ :=
  if points.length < 3 then 0
  else
    let xs : List (ℝ × ℝ) := points.map fun p => (Real.log (p.moneyness : ℝ), (p.implied_vol : ℝ))
    let sum_x := (xs.map Prod.fst).sum
    let sum_y := (xs.map Prod.snd).sum
    let sum_xy := (xs.map fun q => q.1 * q.2).sum
    let sum_x2 := (xs.map fun q => q.1 * q.1).sum
    let sum_y2 := (xs.map fun q => q.2 * q.2).sum
    let n : ℝ := points.length
    let numerator := n * sum_xy - sum_x * sum_y
    let denom_x := n * sum_x2 - sum_x * sum_x
    let denom_y := n * sum_y2 - sum_y * sum_y
    if denom_x ≤ 0 ∨ denom_y ≤ 0 then 0
    else
      let rr := numerator / Real.sqrt (denom_x * denom_y)
      rr * rr

/-- The last-match scan of `calculate_smile_metrics` for the OTM put
(moneyness < 0.95, type `P`) and OTM call (moneyness > 1.05, type `C`)
vols: `(found_otm_put, otm_put_vol, found_otm_call, otm_call_vol)`. -/
def otm_scan (points : List smile_point_t) : Bool × ℚ × Bool × ℚ :=
  points.foldl
    (fun acc p =>
      let acc := if p.moneyness < 0.95 ∧ p.option_type = 'P' then
          (true, p.implied_vol, acc.2.2.1, acc.2.2.2) else acc
      if p.moneyness > 1.05 ∧ p.option_type = 'C' then
        (acc.1, acc.2.1, true, p.implied_vol) else acc)
    (false, 0, false, 0)

/-- `calculate_smile_metrics` from `volatility_smile.c`: guard on
`MIN_SMILE_POINTS`, bubble sort by strike, min/max vols, interpolated ATM
vol, fit quality, skews (assigned only when the corresponding OTM point
was found and `atm_vol > 0`, otherwise keeping their previous values), and
the divided-difference curvature at the middle index. -/
noncomputable def calculate_smile_metrics (smile : volatility_smile_t) :
    volatility_smile_t :=
  if smile.points.length < MIN_SMILE_POINTS then
    { smile with sufficient_data := false }
  else
    let pts := sort_smile_points_by_strike smile.points
    let vols := pts.map smile_point_t.implied_vol
    let first_vol := vols.headD 0
    let min_vol := vols.foldl min first_vol
    let max_vol := vols.foldl max first_vol
    let atm_vol := interpolate_atm_vol pts smile.underlying_price
    let r_squared := polynomial_fit_r_squared pts
    let scan := otm_scan pts
    let put_skew := if scan.1 = true ∧ atm_vol > 0 then atm_vol - scan.2.1 else smile.put_skew
    let call_skew := if scan.2.2.1 = true ∧ atm_vol > 0 then scan.2.2.2 - atm_vol
      else smile.call_skew
    let curvature :=
      if pts.length ≥ 3 then
        let atm_idx := pts.length / 2
        if 0 < atm_idx ∧ atm_idx < pts.length - 1 then
          let h1 := (pts.getD atm_idx smile_point_zero).moneyness -
            (pts.getD (atm_idx - 1) smile_point_zero).moneyness
          let h2 := (pts.getD (atm_idx + 1) smile_point_zero).moneyness -
            (pts.getD atm_idx smile_point_zero).moneyness
          if h1 > 0 ∧ h2 > 0 then
            ((pts.getD (atm_idx + 1) smile_point_zero).implied_vol -
              2 * (pts.getD atm_idx smile_point_zero).implied_vol +
              (pts.getD (atm_idx - 1) smile_point_zero).implied_vol) / (h1 * h2)
          else 0
        else 0
      else 0
    { smile with
        sufficient_data := true
        points := pts
        min_vol := min_vol
        max_vol := max_vol
        atm_vol := atm_vol
        r_squared := r_squared
        put_skew := put_skew
        call_skew := call_skew
        smile_curvature := curvature }

/-- `detect_smile_patterns` from `volatility_smile.c`. -/
def detect_smile_patterns (smile : volatility_smile_t) : volatility_smile_t :=
  if smile.sufficient_data = false then smile
  else
    { smile with
        has_put_skew := smile.put_skew > SKEW_THRESHOLD
        has_call_skew := smile.call_skew > SKEW_THRESHOLD
        has_smile := smile.smile_curvature > SMILE_THRESHOLD ∧
          smile.max_vol - smile.atm_vol > SMILE_THRESHOLD
        is_inverted := smile.smile_curvature < -SMILE_THRESHOLD ∧
          smile.atm_vol - smile.min_vol > SMILE_THRESHOLD }

/-- `analyze_volatility_smile` from `volatility_smile.c` (without the
`last_update` timestamping). -/
noncomputable def analyze_volatility_smile (smile : volatility_smile_t) :
    volatility_smile_t :=
  detect_smile_patterns (calculate_smile_metrics smile)

/-! ### IV vs RV analysis (`realized_vol.c`)

Only the fields of `realized_vol_t` read by `analyze_iv_vs_rv` are
modelled; the signal logic is rational arithmetic, while the percentile
uses the normal CDF and is valued in `ℝ`. -/

/-- The slice of `realized_vol_t` (from `include/realized_vol.h`) read by
`analyze_iv_vs_rv`. -/
structure realized_vol_t where
  rv_10d : ℚ
  rv_20d : ℚ
  rv_30d : ℚ
  rv_trend : ℚ
  rv_mean : ℚ
  rv_std : ℚ
deriving DecidableEq

/-- `iv_rv_analysis_t` from `include/realized_vol.h`. -/
structure iv_rv_analysis_t where
  iv_rv_spread : ℚ
  iv_percentile : ℝ
  vol_regime : ℕ
  signal : String
  recommendation : String

/-- The window choice of `analyze_iv_vs_rv`: `rv_10d` for short-dated
options (fewer than 15 days) when available, `rv_30d` for long-dated ones
(more than 45 days) when available, else `rv_20d`. -/
def relevant_rv_choice (rv : realized_vol_t) (days_to_expiry : ℚ) : ℚ :=
  if days_to_expiry < 15 ∧ rv.rv_10d > 0 then rv.rv_10d
  else if days_to_expiry > 45 ∧ rv.rv_30d > 0 then rv.rv_30d
  else rv.rv_20d

/-- `analyze_iv_vs_rv` from `realized_vol.c`: guard, window choice,
spread, percentile and regime (only when historical statistics exist),
threshold classification into `EXPENSIVE` / `CHEAP` / `NEUTRAL`, and the
trend suffix appended to the recommendation. -/
noncomputable def analyze_iv_vs_rv (implied_vol : ℚ) (rv : realized_vol_t)
    (days_to_expiry : ℚ) : iv_rv_analysis_t :=
  if implied_vol ≤ 0 ∨ rv.rv_20d ≤ 0 then
    { iv_rv_spread := 0, iv_percentile := 0, vol_regime := 0
      signal := "NO_DATA", recommendation := "Insufficient RV data" }
  else
    let relevant_rv := relevant_rv_choice rv days_to_expiry
    let spread := implied_vol - relevant_rv
    let iv_percentile : ℝ :=
      if rv.rv_mean > 0 ∧ rv.rv_std > 0 then
        standard_normal_cdf (((implied_vol - rv.rv_mean) / rv.rv_std : ℚ) : ℝ)
      else 0
    let vol_regime : ℕ :=
      if rv.rv_mean > 0 ∧ rv.rv_std > 0 then
        if relevant_rv < rv.rv_mean - 0.5 * rv.rv_std then 0
        else if relevant_rv > rv.rv_mean + 0.5 * rv.rv_std then 2
        else 1
      else 0
    let spread_threshold := relevant_rv * 0.15
    let signal : String :=
      if spread > spread_threshold then "EXPENSIVE"
      else if spread < -spread_threshold then "CHEAP"
      else "NEUTRAL"
    let rec_base : String :=
      if spread > spread_threshold then
        if iv_percentile > 0.8 then "SELL VOL - IV extremely rich vs RV"
        else "SHORT BIAS - IV moderately expensive"
      else if spread < -spread_threshold then
        if iv_percentile < 0.2 then "BUY VOL - IV extremely cheap vs RV"
        else "LONG BIAS - IV moderately cheap"
      else "FAIR VALUE - IV in line with RV"
    let rec_full :=
      if rv.rv_trend > 0.2 then rec_base ++ " (RV rising)"
      else if rv.rv_trend < -0.2 then rec_base ++ " (RV falling)"
      else rec_base
    { iv_rv_spread := spread
      iv_percentile := iv_percentile
      vol_regime := vol_regime
      signal := signal
      recommendation := rec_full }

/-! ### Analytic facts about `erf` and `standard_normal_cdf` -/

/-- The Gaussian integrand is continuous. -/
lemma gaussian_continuous : Continuous fun t : ℝ => Real.exp (-(t ^ 2)) := by
  fun_prop

/-- The Gaussian integrand is integrable on the line. -/
lemma gaussian_integrable : Integrable fun t : ℝ => Real.exp (-(t ^ 2)) := by
  have h := integrable_exp_neg_mul_sq (b := (1 : ℝ)) one_pos
  simpa using h

/-- Half of the Gaussian integral: the mass of the negative half-line. -/
lemma integral_gaussian_Iic_zero :
    ∫ t in Set.Iic (0 : ℝ), Real.exp (-(t ^ 2)) = Real.sqrt Real.pi / 2 := by
  have h1 : (∫ t in Set.Iic (0 : ℝ), Real.exp (-(t ^ 2))) =
      ∫ t in Set.Iic (0 : ℝ), Real.exp (-((-t) ^ 2)) :=
    setIntegral_congr_fun measurableSet_Iic fun t _ => by ring_nf
  have h2 := integral_comp_neg_Iic (0 : ℝ) fun t => Real.exp (-(t ^ 2))
  have h4 := integral_gaussian_Ioi (1 : ℝ)
  rw [h1, h2]
  simpa using h4

/-- `erf` is odd. -/
lemma erf_neg (u : ℝ) : erf (-u) = -erf u := by
  unfold erf
  have hc := intervalIntegral.integral_comp_neg (a := (0:ℝ)) (b := -u)
    (f := fun t => Real.exp (-(t ^ 2)))
  simp only [neg_neg, neg_zero, neg_sq] at hc
  rw [hc, intervalIntegral.integral_symm]
  ring

/-- `erf` is non-negative at non-negative arguments. -/
lemma erf_nonneg {u : ℝ} (h : 0 ≤ u) : 0 ≤ erf u := by
  unfold erf
  apply mul_nonneg
  · positivity
  · exact intervalIntegral.integral_nonneg h fun t _ => (Real.exp_pos _).le

/-- `erf` is non-positive at non-positive arguments. -/
lemma erf_nonpos {u : ℝ} (h : u ≤ 0) : erf u ≤ 0 := by
  have h1 : 0 ≤ erf (-u) := erf_nonneg (by linarith)
  rw [erf_neg] at h1
  linarith

/-- `erf` is bounded below by `-1`. -/
lemma neg_one_le_erf (u : ℝ) : -1 ≤ erf u := by
  rcases le_or_lt 0 u with h | h
  · linarith [erf_nonneg h]
  · have hI : (∫ t in (0:ℝ)..u, Real.exp (-(t ^ 2))) =
        -∫ t in Set.Ioc u 0, Real.exp (-(t ^ 2)) := by
      rw [intervalIntegral.integral_symm,
        intervalIntegral.integral_of_le h.le]
    have hsub : (∫ t in Set.Ioc u (0:ℝ), Real.exp (-(t ^ 2))) ≤
        ∫ t in Set.Iic (0:ℝ), Real.exp (-(t ^ 2)) := by
      apply setIntegral_mono_set gaussian_integrable.integrableOn
      · exact Filter.Eventually.of_forall fun t => (Real.exp_pos _).le
      · exact Filter.Eventually.of_forall fun t ht => ht.2
    rw [integral_gaussian_Iic_zero] at hsub
    unfold erf
    rw [hI]
    have hπ : 0 < Real.sqrt Real.pi := Real.sqrt_pos.mpr Real.pi_pos
    rw [mul_neg, neg_le, neg_neg]
    calc (2 / Real.sqrt Real.pi) * ∫ t in Set.Ioc u (0:ℝ), Real.exp (-(t ^ 2))
        ≤ (2 / Real.sqrt Real.pi) * (Real.sqrt Real.pi / 2) := by
          apply mul_le_mul_of_nonneg_left hsub (by positivity)
      _ = 1 := by field_simp

/-- `standard_normal_cdf` is non-negative. -/
lemma standard_normal_cdf_nonneg (x : ℝ) : 0 ≤ standard_normal_cdf x := by
  unfold standard_normal_cdf
  have h := neg_one_le_erf (x / Real.sqrt 2.0)
  norm_num
  linarith

/-- `standard_normal_cdf` is at most `1/2` at non-positive arguments. -/
lemma standard_normal_cdf_le_half {x : ℝ} (h : x ≤ 0) : standard_normal_cdf x ≤ 1 / 2 := by
  unfold standard_normal_cdf
  have hs : (0:ℝ) < Real.sqrt 2.0 := by
    rw [show (2.0 : ℝ) = 2 by norm_num]
    positivity
  have h2 : x / Real.sqrt 2.0 ≤ 0 := div_nonpos_iff.mpr (Or.inr ⟨h, hs.le⟩)
  have h3 := erf_nonpos h2
  norm_num
  linarith

/-- `standard_normal_cdf x + standard_normal_cdf (-x) = 1`: the symmetry of
the normal distribution, exact for the `erf`-based implementation. -/
lemma standard_normal_cdf_add_neg (x : ℝ) :
    standard_normal_cdf x + standard_normal_cdf (-x) = 1 := by
  unfold standard_normal_cdf
  rw [neg_div, erf_neg]
  ring

/-! ### Numeric facts at the Vega-breakdown input `(price, S, K, T, r) =
(1, 1, e⁵⁰, 1, 0)` used to settle the solver claims -/

/-- `e⁵⁰` is large. -/
lemma exp_fifty_large : (51 : ℝ) ≤ Real.exp 50 := by
  have h := Real.add_one_le_exp (50 : ℝ)
  linarith

/-- `2 ≤ e`. -/
lemma two_le_exp_one : (2 : ℝ) ≤ Real.exp 1 := by
  have h := Real.add_one_le_exp (1 : ℝ)
  linarith

/-- The exponential of a large negative number is tiny: the bound used for
the Vega comparison with `1e-10`. -/
lemma exp_neg_large_small : Real.exp (-(175.78125 : ℝ)) < 1e-10 := by
  have h34 : (2 : ℝ) ^ (34 : ℕ) ≤ Real.exp 34 := by
    have h := pow_le_pow_left₀ (by norm_num : (0:ℝ) ≤ 2) two_le_exp_one 34
    calc (2:ℝ) ^ (34:ℕ) ≤ Real.exp 1 ^ (34:ℕ) := h
      _ = Real.exp ((34:ℕ) * 1) := (Real.exp_nat_mul 1 34).symm
      _ = Real.exp 34 := by norm_num
  have hmono : Real.exp 34 ≤ Real.exp 175.78125 := Real.exp_le_exp.mpr (by norm_num)
  have hbig : (1e10 : ℝ) < Real.exp 175.78125 := by
    calc (1e10 : ℝ) < 2 ^ (34:ℕ) := by norm_num
      _ ≤ Real.exp 34 := h34
      _ ≤ Real.exp 175.78125 := hmono
  rw [Real.exp_neg]
  rw [inv_lt_comm₀ (Real.exp_pos _) (by norm_num)]
  calc (1e-10 : ℝ)⁻¹ = 1e10 := by norm_num
    _ < Real.exp 175.78125 := hbig

/-- `log (1 / e⁵⁰) = -50`. -/
lemma log_inv_exp_fifty : Real.log (1 / Real.exp 50) = -50 := by
  rw [one_div, Real.log_inv, Real.log_exp]

/-- `√(2π) ≥ 1`. -/
lemma one_le_sqrt_two_pi : (1 : ℝ) ≤ Real.sqrt (2 * Real.pi) := by
  have h : (1 : ℝ) ≤ 2 * Real.pi := by nlinarith [Real.pi_gt_three]
  calc (1:ℝ) = Real.sqrt 1 := Real.sqrt_one.symm
    _ ≤ Real.sqrt (2 * Real.pi) := Real.sqrt_le_sqrt h

/-- The standard normal density is bounded by the bare exponential. -/
lemma standard_normal_pdf_le (x : ℝ) :
    standard_normal_pdf x ≤ Real.exp (-0.5 * x * x) := by
  unfold standard_normal_pdf
  rw [show (2.0 : ℝ) = 2 by norm_num, show (1.0 : ℝ) = 1 by norm_num]
  have hge : (1:ℝ) ≤ Real.sqrt (2 * Real.pi) := one_le_sqrt_two_pi
  have h1 : (0:ℝ) < Real.sqrt (2 * Real.pi) := by linarith
  have h2 : 1 / Real.sqrt (2 * Real.pi) ≤ 1 := by
    rw [div_le_one h1]; exact hge
  calc 1 / Real.sqrt (2 * Real.pi) * Real.exp (-0.5 * x * x)
      ≤ 1 * Real.exp (-0.5 * x * x) :=
        mul_le_mul_of_nonneg_right h2 (Real.exp_pos _).le
    _ = Real.exp (-0.5 * x * x) := one_mul _

/-- `d1` at the break point of the counterexample run:
`d1(S=1, K=e⁵⁰, T=1, r=0, σ=2.5) = -18.75`. -/
lemma d1_at_breakdown : calculate_d1 1 (Real.exp 50) 1 0 2.5 = -18.75 := by
  unfold calculate_d1
  rw [if_neg (by push_neg; constructor <;> norm_num)]
  rw [Real.sqrt_one, log_inv_exp_fifty]
  norm_num

/-- Vega at the counterexample break point is below the `1e-10` cutoff. -/
lemma vega_at_breakdown : bs_vega 1 (Real.exp 50) 1 0 2.5 < 1e-10 := by
  unfold bs_vega
  rw [if_neg (by push_neg; constructor <;> norm_num)]
  rw [d1_at_breakdown, Real.sqrt_one]
  have h1 : standard_normal_pdf (-18.75) ≤ Real.exp (-(175.78125:ℝ)) := by
    have h := standard_normal_pdf_le (-18.75)
    calc standard_normal_pdf (-18.75) ≤ Real.exp (-0.5 * -18.75 * -18.75) := h
      _ = Real.exp (-(175.78125:ℝ)) := by norm_num
  calc 1 * standard_normal_pdf (-18.75) * 1 = standard_normal_pdf (-18.75) := by ring
    _ ≤ Real.exp (-(175.78125:ℝ)) := h1
    _ < 1e-10 := exp_neg_large_small

/-- At `S = 1, K = e⁵⁰, T = 1, r = 0`, the call price is at most `1/2` for
any volatility between 0 and 10 (the scan covers `0.001`, `2.5`, `5`). -/
lemma call_price_le_half_at_breakdown (sigma : ℝ) (h0 : 0 < sigma) (h10 : sigma ≤ 10) :
    bs_call_price 1 (Real.exp 50) 1 0 sigma ≤ 1 / 2 := by
  unfold bs_call_price
  rw [if_neg (by norm_num), if_neg (by linarith)]
  have hd1 : calculate_d1 1 (Real.exp 50) 1 0 sigma ≤ 0 := by
    unfold calculate_d1
    rw [if_neg (by push_neg; constructor <;> linarith)]
    rw [Real.sqrt_one, log_inv_exp_fifty]
    apply div_nonpos_iff.mpr
    refine Or.inr ⟨?_, by linarith⟩
    nlinarith
  have hΦ1 : standard_normal_cdf (calculate_d1 1 (Real.exp 50) 1 0 sigma) ≤ 1 / 2 :=
    standard_normal_cdf_le_half hd1
  have hΦ2 : 0 ≤ standard_normal_cdf (calculate_d2 1 (Real.exp 50) 1 0 sigma) :=
    standard_normal_cdf_nonneg _
  rw [show (-0 : ℝ) * 1 = 0 by norm_num, Real.exp_zero, mul_one, one_mul]
  have hM := mul_nonneg (Real.exp_pos 50).le hΦ2
  linarith

/-- A square plus at least 100 has square root at least 10. -/
lemma sqrt_sq_add_ge (g c : ℝ) (h : 100 ≤ c) : 10 ≤ Real.sqrt (g ^ 2 + c) := by
  have h100 : (100:ℝ) ≤ g ^ 2 + c := by nlinarith [sq_nonneg g]
  calc (10:ℝ) = Real.sqrt 100 := by
        rw [show (100:ℝ) = 10 ^ 2 by norm_num, Real.sqrt_sq (by norm_num)]
    _ ≤ _ := Real.sqrt_le_sqrt h100

/-- The raw Corrado-Miller guess at the counterexample input is at least
10 (driven by the `2|x|/√T = 100` term under the square root). -/
lemma cm_guess_at_breakdown : (10:ℝ) ≤ iv_corrado_miller_guess 1 1 (Real.exp 50) 1 0 := by
  unfold iv_corrado_miller_guess
  simp only [Real.sqrt_one]
  refine le_trans (le_trans ?_ (le_refl _)) (le_max_left _ _)
  refine le_trans (sqrt_sq_add_ge _ _ ?_) (le_refl _)
  rw [show (-0 : ℝ) * 1 = 0 by norm_num, Real.exp_zero]
  rw [show (1:ℝ) / 1 / Real.exp 50 = 1 / Real.exp 50 by norm_num, log_inv_exp_fifty]
  norm_num

/-- The clamped Corrado-Miller seed at the counterexample input is exactly
`2.5 = IV_MAX_VOL * 0.5` (the raw guess is at least 10). -/
lemma seed_at_breakdown :
    max (min (iv_corrado_miller_guess 1 1 (Real.exp 50) 1 0) (IV_MAX_VOL * 0.5))
      IV_MIN_VOL = 2.5 := by
  have hguess := cm_guess_at_breakdown
  unfold IV_MAX_VOL IV_MIN_VOL
  rw [min_eq_right (by norm_num; linarith)]
  rw [max_eq_left (by norm_num)]
  norm_num

/-- The Newton-Raphson loop at the counterexample input breaks in its very
first iteration because Vega is below `1e-10`, returning the seed `2.5`
with the cap flag clear. -/
lemma newton_loop_break (p S K T r : ℝ) (c : Bool) (fuel : ℕ) (vol : ℝ)
    (h : bs_vega S K T r vol < 1e-10) :
    newton_loop p S K T r c (fuel + 1) vol = (vol, false) := by
  rw [newton_loop]
  rw [if_pos (Or.inr h)]

/-- The Newton-Raphson loop at the counterexample input returns the seed
`2.5` with the cap flag clear. -/
lemma newton_loop_at_breakdown :
    newton_loop 1 1 (Real.exp 50) 1 0 true IV_MAX_ITERATIONS 2.5 = (2.5, false) := by
  rw [show IV_MAX_ITERATIONS = 99 + 1 from rfl]
  exact newton_loop_break 1 1 (Real.exp 50) 1 0 true 99 2.5 vega_at_breakdown

/-- `implied_volatility` at the counterexample input returns the seed
`2.5` directly (no bisection). -/
lemma implied_volatility_at_breakdown :
    implied_volatility 1 1 (Real.exp 50) 1 0 true = 2.5 := by
  unfold implied_volatility
  rw [if_neg (by
    push_neg
    exact ⟨by norm_num, by norm_num, by positivity, by norm_num⟩)]
  simp only [if_true]
  rw [if_neg (by
    rw [max_eq_right (by linarith [exp_fifty_large])]
    norm_num)]
  rw [seed_at_breakdown, newton_loop_at_breakdown]
  norm_num

/-- The bisection fallback at the counterexample input returns the upper
bracket `5.0` immediately (the market price 1 exceeds the model price at
the top of the bracket). -/
lemma bisection_at_breakdown :
    implied_volatility_bisection 1 1 (Real.exp 50) 1 0 true = 5 := by
  unfold implied_volatility_bisection
  simp only [if_true]
  have hlow := call_price_le_half_at_breakdown IV_MIN_VOL
    (by unfold IV_MIN_VOL; norm_num) (by unfold IV_MIN_VOL; norm_num)
  have hhigh := call_price_le_half_at_breakdown IV_MAX_VOL
    (by unfold IV_MAX_VOL; norm_num) (by unfold IV_MAX_VOL; norm_num)
  rw [if_neg (by push_neg; linarith)]
  rw [if_pos (by linarith)]
  unfold IV_MAX_VOL
  norm_num

/-- The implied-vol field of the full metrics at the counterexample input. -/
lemma full_metrics_iv_at_breakdown :
    (calculate_full_bs_metrics 1 (Real.exp 50) 1 0 1 true).implied_vol = 2.5 := by
  simp only [calculate_full_bs_metrics, implied_volatility_at_breakdown]

/-! ### Claim C1 -/

/-- C1, counterexample: at `(S, K, T, r, market_price, is_call) =
(1, e⁵⁰, 1, 0, 1, call)` the Newton loop breaks on a sub-`1e-10` Vega and
returns the seed 2.5, so `iv_converged` is set, yet the Black-Scholes
price recomputed at `σ = implied_vol` is at most `1/2` and therefore
misses the reference market price 1 by far more than
`1e-5 · max 1 market_price`.  The accuracy half of the claim is false. -/
theorem C1_counterexample_repricing :
    (calculate_full_bs_metrics 1 (Real.exp 50) 1 0 1 true).iv_converged = true ∧
    ¬(|bs_call_price 1 (Real.exp 50) 1 0
        ((calculate_full_bs_metrics 1 (Real.exp 50) 1 0 1 true).implied_vol) - 1| ≤
      1e-5 * max 1 1) := by
  constructor
  · simp only [calculate_full_bs_metrics, implied_volatility_at_breakdown]
    rw [if_pos (by unfold IV_MIN_VOL IV_MAX_VOL; norm_num)]
  · rw [full_metrics_iv_at_breakdown]
    intro habs
    have hle := (abs_le.mp habs).1
    have hhalf := call_price_le_half_at_breakdown 2.5 (by norm_num) (by norm_num)
    rw [show max (1:ℝ) 1 = 1 from max_self 1] at hle
    linarith

/-- C1, amended: the first half of the claim holds exactly as the code
writes it — `iv_converged` is set precisely when the returned implied
volatility lies strictly between `0.001` and `5.0`.  (The second half, the
`1e-5` repricing accuracy whenever the flag is set, is refuted by the
counterexample: a Vega-breakdown exit keeps the flag set while leaving an
arbitrarily large pricing error.) -/
theorem C1_amended_converged_iff (S K T r market_price : ℝ) (is_call : Bool) :
    (calculate_full_bs_metrics S K T r market_price is_call).iv_converged = true ↔
      (IV_MIN_VOL < (calculate_full_bs_metrics S K T r market_price is_call).implied_vol ∧
        (calculate_full_bs_metrics S K T r market_price is_call).implied_vol < IV_MAX_VOL) := by
  simp only [calculate_full_bs_metrics]
  by_cases h : IV_MIN_VOL < implied_volatility market_price S K T r is_call ∧
      implied_volatility market_price S K T r is_call < IV_MAX_VOL
  · simp [h]
  · simp [h]

/-! ### Claim C2 -/

/-- C2, counterexample: at `(price, S, K, T, r) = (1, 1, e⁵⁰, 1, 0)` the
Newton-Raphson iteration does not converge — Vega at the current
volatility 2.5 is below `1e-10` — yet `implied_volatility` returns 2.5
directly, while the bisection fallback on `[0.001, 5.0]` would return 5.
The claim that every Vega-breakdown falls back to bisection is false. -/
theorem C2_counterexample_no_bisection :
    bs_vega 1 (Real.exp 50) 1 0 2.5 < 1e-10 ∧
    implied_volatility 1 1 (Real.exp 50) 1 0 true = 2.5 ∧
    implied_volatility_bisection 1 1 (Real.exp 50) 1 0 true = 5 ∧
    implied_volatility 1 1 (Real.exp 50) 1 0 true ≠
      implied_volatility_bisection 1 1 (Real.exp 50) 1 0 true := by
  refine ⟨vega_at_breakdown, implied_volatility_at_breakdown, bisection_at_breakdown, ?_⟩
  rw [implied_volatility_at_breakdown, bisection_at_breakdown]
  norm_num

/-- C2, amended: past the input guards and the intrinsic-value check,
`implied_volatility` falls back to bisection exactly when the Newton loop
exhausts its 100-iteration cap; a `break` (price convergence, volatility
convergence, or Vega below `1e-10`) returns the loop volatility directly
without running bisection. -/
theorem C2_amended_bisection_iff_cap (p S K T r : ℝ) (c : Bool)
    (hg : ¬(p ≤ 0 ∨ S ≤ 0 ∨ K ≤ 0 ∨ T ≤ 0))
    (hi : ¬(p ≤ (if c then max (S - K) 0 else max (K - S) 0) + 1e-6)) :
    implied_volatility p S K T r c =
      (if (newton_loop p S K T r c IV_MAX_ITERATIONS
            (max (min (iv_corrado_miller_guess p S K T r) (IV_MAX_VOL * 0.5)) IV_MIN_VOL)).2
        then implied_volatility_bisection p S K T r c
        else (newton_loop p S K T r c IV_MAX_ITERATIONS
            (max (min (iv_corrado_miller_guess p S K T r) (IV_MAX_VOL * 0.5)) IV_MIN_VOL)).1) := by
  simp only [implied_volatility, hg, hi, if_false]

/-- Witness for the amended C2 at the concrete input
`(price, S, K, T, r) = (1, 1, 3, 1, 0)`, discharging both guards. -/
theorem C2_amended_bisection_iff_cap_witness :
    implied_volatility 1 1 3 1 0 true =
      (if (newton_loop 1 1 3 1 0 true IV_MAX_ITERATIONS
            (max (min (iv_corrado_miller_guess 1 1 3 1 0) (IV_MAX_VOL * 0.5)) IV_MIN_VOL)).2
        then implied_volatility_bisection 1 1 3 1 0 true
        else (newton_loop 1 1 3 1 0 true IV_MAX_ITERATIONS
            (max (min (iv_corrado_miller_guess 1 1 3 1 0) (IV_MAX_VOL * 0.5)) IV_MIN_VOL)).1) :=
  C2_amended_bisection_iff_cap 1 1 3 1 0 true (by norm_num)
    (by norm_num [max_eq_right])

/-! ### Claim C3 -/

/-- C3, counterexample: the claim's formulas fail on two points of the
code.  With `σ = 0` but `T = 1 > 0` and `r = log 2` the call price is
`max (S − K·e^{−rT}) 0 = 1/2`, not the claimed intrinsic `max (S − K) 0 =
0`; and `implied_volatility` at `T = 0` returns `0.0`, not the claimed
lower bound `0.001`. -/
theorem C3_counterexample_degenerate :
    bs_call_price 1 1 1 (Real.log 2) 0 = 1 / 2 ∧
    max ((1:ℝ) - 1) 0 = 0 ∧
    implied_volatility 5 100 100 0 0 true = 0 := by
  refine ⟨?_, by norm_num, ?_⟩
  · unfold bs_call_price
    rw [if_neg (by norm_num), if_pos le_rfl]
    rw [show -Real.log 2 * 1 = -Real.log 2 by ring, Real.exp_neg,
      Real.exp_log (by norm_num)]
    norm_num
  · unfold implied_volatility
    rw [if_pos (Or.inr (Or.inr (Or.inr le_rfl)))]

/-- `max a 0 - max (-a) 0 = a`. -/
lemma max_zero_sub_max_neg_zero (a : ℝ) : max a 0 - max (-a) 0 = a := by
  rcases le_total a 0 with h | h
  · rw [max_eq_right h, max_eq_left (by linarith)]; ring
  · rw [max_eq_left h, max_eq_right (by linarith)]; ring

/-- C3, amended: for `T ≤ 0` the pricing and Greeks functions return the
intrinsic-value limits (`max (S−K) 0`, `max (K−S) 0`, `Γ = V = 0`) and
`implied_volatility` returns `0.0` (not the `0.001` lower bound); for
`σ ≤ 0` with `T > 0` the prices are the deterministic discounted-payoff
limits `max (S − K·e^{−rT}) 0` and `max (K·e^{−rT} − S) 0` (not the raw
intrinsic values), again with `Γ = V = 0`.  No case leaves the guarded
branches, so no NaN can arise. -/
theorem C3_amended_degenerate_limits (S K T r sigma p : ℝ) (c : Bool) :
    (T ≤ 0 → bs_call_price S K T r sigma = max (S - K) 0 ∧
      bs_put_price S K T r sigma = max (K - S) 0 ∧
      bs_gamma S K T r sigma = 0 ∧ bs_vega S K T r sigma = 0 ∧
      implied_volatility p S K T r c = 0) ∧
    (sigma ≤ 0 → 0 < T →
      bs_call_price S K T r sigma = max (S - K * Real.exp (-r * T)) 0 ∧
      bs_put_price S K T r sigma = max (K * Real.exp (-r * T) - S) 0 ∧
      bs_gamma S K T r sigma = 0 ∧ bs_vega S K T r sigma = 0) := by
  constructor
  · intro hT
    refine ⟨?_, ?_, ?_, ?_, ?_⟩
    · unfold bs_call_price; rw [if_pos hT]
    · unfold bs_put_price; rw [if_pos hT]
    · unfold bs_gamma; rw [if_pos (Or.inl hT)]
    · unfold bs_vega; rw [if_pos (Or.inl hT)]
    · unfold implied_volatility; rw [if_pos (Or.inr (Or.inr (Or.inr hT)))]
  · intro hs hT
    refine ⟨?_, ?_, ?_, ?_⟩
    · unfold bs_call_price; rw [if_neg (not_le.mpr hT), if_pos hs]
    · unfold bs_put_price; rw [if_neg (not_le.mpr hT), if_pos hs]
    · unfold bs_gamma; rw [if_pos (Or.inr hs)]
    · unfold bs_vega; rw [if_pos (Or.inr hs)]

/-- Witness for the amended C3, applying it at `T = 0` and at
`σ = −1, T = 1`. -/
theorem C3_amended_degenerate_limits_witness :
    bs_call_price 2 1 0 0 1 = max (2 - 1) 0 ∧
    implied_volatility 7 2 1 0 0 true = 0 ∧
    bs_vega 3 1 1 0 (-1) = 0 := by
  have h1 := (C3_amended_degenerate_limits 2 1 0 0 1 7 true).1 le_rfl
  have h2 := (C3_amended_degenerate_limits 3 1 1 0 (-1) 7 true).2 (by norm_num) (by norm_num)
  exact ⟨h1.1, h1.2.2.2.2, h2.2.2.2⟩

/-! ### Claim C4 -/

/-- C4, counterexample: put-call parity as claimed fails for negative `T`
(the claim quantifies over every `T`): at `S = K = 1`, `T = −1`,
`r = log 2`, both prices are the intrinsic 0, but
`S − K·e^{−rT} = 1 − 2 = −1`, so the defect is 1, far above
`1e-9 · max 1 S`. -/
theorem C4_counterexample_negative_T :
    ¬(|bs_call_price 1 1 (-1) (Real.log 2) 1 - bs_put_price 1 1 (-1) (Real.log 2) 1 -
        (1 - 1 * Real.exp (-Real.log 2 * (-1)))| ≤ 1e-9 * max 1 1) := by
  unfold bs_call_price bs_put_price
  rw [if_pos (by norm_num : (-1:ℝ) ≤ 0), if_pos (by norm_num : (-1:ℝ) ≤ 0)]
  rw [show -Real.log 2 * (-1 : ℝ) = Real.log 2 by ring, Real.exp_log (by norm_num)]
  norm_num

/-- C4, amended: put-call parity holds for every `S > 0`, `K > 0`,
`σ` and every non-negative `T` — in fact the parity defect is exactly 0 in
each branch of the implementation (`Φ(x) + Φ(−x) = 1` holds exactly for
the `erf`-based CDF). -/
theorem C4_amended_parity (S K T r sigma : ℝ) (hS : 0 < S) (hK : 0 < K) (hT : 0 ≤ T) :
    |bs_call_price S K T r sigma - bs_put_price S K T r sigma -
      (S - K * Real.exp (-r * T))| ≤ 1e-9 * max 1 S := by
  have hrhs : (0:ℝ) ≤ 1e-9 * max 1 S := by positivity
  rcases eq_or_lt_of_le hT with hT0 | hTpos
  · unfold bs_call_price bs_put_price
    rw [if_pos hT0.ge, if_pos hT0.ge, ← hT0]
    rw [show -r * (0:ℝ) = 0 by ring, Real.exp_zero]
    have h := max_zero_sub_max_neg_zero (S - K)
    rw [show -(S - K) = K - S by ring] at h
    rw [h]
    simpa using hrhs
  · unfold bs_call_price bs_put_price
    rw [if_neg (not_le.mpr hTpos), if_neg (not_le.mpr hTpos)]
    rcases le_or_lt sigma 0 with hs | hs
    · rw [if_pos hs, if_pos hs]
      have h := max_zero_sub_max_neg_zero (S - K * Real.exp (-r * T))
      rw [show -(S - K * Real.exp (-r * T)) = K * Real.exp (-r * T) - S by ring] at h
      rw [h]
      simpa using hrhs
    · rw [if_neg (not_le.mpr hs), if_neg (not_le.mpr hs)]
      have h1 := standard_normal_cdf_add_neg (calculate_d1 S K T r sigma)
      have h2 := standard_normal_cdf_add_neg (calculate_d2 S K T r sigma)
      rw [show S * standard_normal_cdf (calculate_d1 S K T r sigma) -
            K * Real.exp (-r * T) * standard_normal_cdf (calculate_d2 S K T r sigma) -
            (K * Real.exp (-r * T) * standard_normal_cdf (-calculate_d2 S K T r sigma) -
              S * standard_normal_cdf (-calculate_d1 S K T r sigma)) -
            (S - K * Real.exp (-r * T)) =
          S * (standard_normal_cdf (calculate_d1 S K T r sigma) +
              standard_normal_cdf (-calculate_d1 S K T r sigma)) -
            K * Real.exp (-r * T) * (standard_normal_cdf (calculate_d2 S K T r sigma) +
              standard_normal_cdf (-calculate_d2 S K T r sigma)) -
            (S - K * Real.exp (-r * T)) by ring, h1, h2]
      rw [show S * 1 - K * Real.exp (-r * T) * 1 - (S - K * Real.exp (-r * T)) = 0 by ring,
        abs_zero]
      exact hrhs

/-- Witness for the amended C4 at `S = 1, K = 2, T = 0, r = 0, σ = 1`. -/
theorem C4_amended_parity_witness :
    |bs_call_price 1 2 0 0 1 - bs_put_price 1 2 0 0 1 -
      (1 - 2 * Real.exp (-0 * 0))| ≤ 1e-9 * max 1 1 :=
  C4_amended_parity 1 2 0 0 1 (by norm_num) (by norm_num) le_rfl

/-! ### Claim C7 -/

/-- The five-point smile of the concrete scenario: moneyness
`{0.90, 0.95, 1.00, 1.05, 1.10}` (strikes 90..110 against spot 100) with
implied vols `{0.30, 0.26, 0.22, 0.24, 0.28}`, puts below the money and
calls at or above. -/
def c7_points : List smile_point_t :=
  [{ strike := 90, implied_vol := 3/10, moneyness := 9/10, time_to_expiry := 1/4,
     option_type := 'P', data_quality := true },
   { strike := 95, implied_vol := 13/50, moneyness := 19/20, time_to_expiry := 1/4,
     option_type := 'P', data_quality := true },
   { strike := 100, implied_vol := 11/50, moneyness := 1, time_to_expiry := 1/4,
     option_type := 'C', data_quality := true },
   { strike := 105, implied_vol := 6/25, moneyness := 21/20, time_to_expiry := 1/4,
     option_type := 'C', data_quality := true },
   { strike := 110, implied_vol := 7/25, moneyness := 11/10, time_to_expiry := 1/4,
     option_type := 'C', data_quality := true }]

/-- The freshly zeroed smile holding the scenario points. -/
noncomputable def c7_smile : volatility_smile_t :=
  { underlying := "QQQ", expiry_date := "250801", time_to_expiry := 1/4
    underlying_price := 100, points := c7_points
    atm_vol := 0, put_skew := 0, call_skew := 0, smile_curvature := 0
    min_vol := 0, max_vol := 0, r_squared := 0
    has_put_skew := false, has_call_skew := false, has_smile := false
    is_inverted := false, sufficient_data := false }

/-- C7, counterexample: on the five-point scenario smile the analyzer
computes `put_skew = −0.08` (ATM vol 0.22 minus the 0.30 vol of the
moneyness-0.90 put — the only put strictly below the 0.95 cutoff) and
`call_skew = 0.06` (the 0.28 vol of the moneyness-1.10 call minus ATM),
not the claimed `−0.04` and `0.02`; both miss the claimed values by 0.04,
far outside any approximation tolerance of 0.01. -/
theorem C7_counterexample_skews :
    (analyze_volatility_smile c7_smile).put_skew = -(2/25) ∧
    (analyze_volatility_smile c7_smile).call_skew = 3/50 ∧
    ¬(|(analyze_volatility_smile c7_smile).put_skew - (-(1/25))| ≤ 1/100) ∧
    ¬(|(analyze_volatility_smile c7_smile).call_skew - 1/50| ≤ 1/100) := by
  norm_num [analyze_volatility_smile, calculate_smile_metrics, detect_smile_patterns,
    c7_smile, c7_points, sort_smile_points_by_strike, bubble_iter, bubble_pass,
    bubble_pass_aux, interpolate_atm_vol, best_atm_idx, best_atm_idx_aux, otm_scan,
    MIN_SMILE_POINTS, SKEW_THRESHOLD, SMILE_THRESHOLD, smile_point_zero,
    List.foldl, List.getD, abs_of_nonneg, abs_of_nonpos]

/-- C7, amended: on the scenario smile the analyzer yields
`atm_vol = 0.22` exactly, `put_skew = −0.08` (ATM vol minus the vol of the
last OTM put with moneyness strictly below 0.95, here the 0.90 point),
`call_skew = 0.06` (vol of the last OTM call with moneyness strictly above
1.05, here the 1.10 point, minus ATM), `is_inverted = false`, and
`has_smile = true`. -/
theorem C7_amended_smile_scenario :
    (analyze_volatility_smile c7_smile).atm_vol = 11/50 ∧
    (analyze_volatility_smile c7_smile).put_skew = -(2/25) ∧
    (analyze_volatility_smile c7_smile).call_skew = 3/50 ∧
    (analyze_volatility_smile c7_smile).is_inverted = false ∧
    (analyze_volatility_smile c7_smile).has_smile = true := by
  norm_num [analyze_volatility_smile, calculate_smile_metrics, detect_smile_patterns,
    c7_smile, c7_points, sort_smile_points_by_strike, bubble_iter, bubble_pass,
    bubble_pass_aux, interpolate_atm_vol, best_atm_idx, best_atm_idx_aux, otm_scan,
    MIN_SMILE_POINTS, SKEW_THRESHOLD, SMILE_THRESHOLD, smile_point_zero,
    List.foldl, List.getD, abs_of_nonneg, abs_of_nonpos]

/-! ### Claim C8 -/

/-- C8, confirmed: for positive implied vol and positive `rv_20d`,
`analyze_iv_vs_rv` compares against `rv_10d` when the option has fewer
than 15 days to expiry and `rv_10d` is available, against `rv_30d` when it
has more than 45 days and `rv_30d` is available, and against `rv_20d`
otherwise; the spread is `σ_IV − rv_chosen` and the signal is `EXPENSIVE`
above `0.15·rv_chosen`, `CHEAP` below `−0.15·rv_chosen`, `NEUTRAL`
in between. -/
theorem C8_window_spread_signal (implied_vol : ℚ) (rv : realized_vol_t) (D : ℚ)
    (hiv : 0 < implied_vol) (h20 : 0 < rv.rv_20d) :
    relevant_rv_choice rv D =
      (if D < 15 ∧ 0 < rv.rv_10d then rv.rv_10d
       else if 45 < D ∧ 0 < rv.rv_30d then rv.rv_30d
       else rv.rv_20d) ∧
    (analyze_iv_vs_rv implied_vol rv D).iv_rv_spread =
      implied_vol - relevant_rv_choice rv D ∧
    (analyze_iv_vs_rv implied_vol rv D).signal =
      (if implied_vol - relevant_rv_choice rv D > 0.15 * relevant_rv_choice rv D then
        "EXPENSIVE"
       else if implied_vol - relevant_rv_choice rv D < -(0.15 * relevant_rv_choice rv D) then
        "CHEAP"
       else "NEUTRAL") := by
  have hguard : ¬(implied_vol ≤ 0 ∨ rv.rv_20d ≤ 0) := by
    push_neg; exact ⟨hiv, h20⟩
  refine ⟨rfl, ?_, ?_⟩
  · simp only [analyze_iv_vs_rv, hguard, if_false, relevant_rv_choice]
  · simp only [analyze_iv_vs_rv, hguard, if_false, relevant_rv_choice, mul_comm]

/-- The concrete RV series of the C8 witness. -/
def c8_rv : realized_vol_t :=
  { rv_10d := 2/10, rv_20d := 3/10, rv_30d := 4/10, rv_trend := 0, rv_mean := 0, rv_std := 0 }

/-- Witness for C8 at `σ_IV = 1/2`, `rv = (0.2, 0.3, 0.4, 0, 0, 0)`,
`D = 10`: both hypotheses hold. -/
theorem C8_window_spread_signal_witness :
    (0:ℚ) < 1/2 ∧ (0:ℚ) < c8_rv.rv_20d ∧
    (analyze_iv_vs_rv (1/2) c8_rv 10).iv_rv_spread =
      1/2 - relevant_rv_choice c8_rv 10 := by
  refine ⟨by norm_num, by norm_num [c8_rv], ?_⟩
  exact (C8_window_spread_signal (1/2) c8_rv 10 (by norm_num)
    (by norm_num [c8_rv])).2.1

/-! ### Claim C10 -/

/-- C10, confirmed: on any symbol that does not parse — length below 15,
or no anchor position `i ≥ 1` carrying six digits, `C`/`P`, and a digit —
`parse_option_symbol` does not fail: it writes the input symbol itself,
truncated to the output buffer and NUL-terminated, with no error
indication. -/
theorem C10_render_fallback_copies_input (symbol : String) (readable_size : ℕ)
    (hsize : 1 ≤ readable_size)
    (hfail : symbol.toList.length < 15 ∨ find_date_start symbol.toList = none) :
    parse_option_symbol symbol readable_size =
      some (String.mk (symbol.toList.take (readable_size - 1))) := by
  have hnone : find_date_start symbol.toList = none := by
    rcases hfail with hlen | hn
    · unfold find_date_start; rw [if_pos hlen]
    · exact hn
  unfold parse_option_symbol
  by_cases h64 : readable_size < 64
  · rw [if_pos h64, if_pos (by omega)]
  · rw [if_neg h64]
    simp only [hnone]

/-- Witness for C10 at the non-parsing symbol `"HELLO"` with a 64-byte
buffer. -/
theorem C10_render_fallback_copies_input_witness :
    parse_option_symbol "HELLO" 64 =
      some (String.mk ("HELLO".toList.take (64 - 1))) :=
  C10_render_fallback_copies_input "HELLO" 64 (by norm_num) (Or.inl (by decide))

/-! ### List lemmas for the options-table model -/

/-- Members of `list_modify f i l` are members of `l` or images under `f`
of members of `l`. -/
lemma mem_list_modify {α : Type} {f : α → α} {i : ℕ} {l : List α} {x : α}
    (hx : x ∈ list_modify f i l) : x ∈ l ∨ ∃ y ∈ l, x = f y := by
  induction l generalizing i with
  | nil => simp [list_modify] at hx
  | cons a l ih =>
    cases i with
    | zero =>
      rcases List.mem_cons.mp hx with h | h
      · exact Or.inr ⟨a, List.mem_cons_self a l, h⟩
      · exact Or.inl (List.mem_cons_of_mem _ h)
    | succ n =>
      rcases List.mem_cons.mp hx with h | h
      · exact Or.inl (by simp [h])
      · rcases ih h with h2 | ⟨y, hy, hxy⟩
        · exact Or.inl (List.mem_cons_of_mem _ h2)
        · exact Or.inr ⟨y, List.mem_cons_of_mem _ hy, hxy⟩

/-- A found index is in range. -/
lemma find_symbol_idx_lt {s : String} {l : List option_data_t} {i : ℕ}
    (h : find_symbol_idx s l = some i) : i < l.length := by
  induction l generalizing i with
  | nil => simp [find_symbol_idx] at h
  | cons a l ih =>
    by_cases ha : (a.symbol == s) = true
    · simp [find_symbol_idx, ha] at h
      simp only [List.length_cons]
      omega
    · simp [find_symbol_idx, ha] at h
      rcases h with ⟨j, hj, hij⟩
      have := ih hj
      simp only [List.length_cons]
      omega

/-- The row at a found index carries the searched symbol. -/
lemma find_symbol_idx_getD {s : String} {l : List option_data_t} {i : ℕ}
    (h : find_symbol_idx s l = some i) (dflt : option_data_t) :
    (l.getD i dflt).symbol = s := by
  induction l generalizing i with
  | nil => simp [find_symbol_idx] at h
  | cons a l ih =>
    by_cases ha : (a.symbol == s) = true
    · simp [find_symbol_idx, ha] at h
      simp [← h, List.getD]
      exact eq_of_beq ha
    · simp [find_symbol_idx, ha] at h
      rcases h with ⟨j, hj, hij⟩
      rw [← hij]
      simpa [List.getD] using ih hj

/-- `list_modify` at the found index replaces exactly that row. -/
lemma getD_list_modify_self {f : option_data_t → option_data_t} {i : ℕ}
    {l : List option_data_t} (h : i < l.length) (dflt : option_data_t) :
    (list_modify f i l).getD i dflt = f (l.getD i dflt) := by
  induction l generalizing i with
  | nil => simp at h
  | cons a l ih =>
    cases i with
    | zero => simp [list_modify, List.getD]
    | succ n =>
      simp only [list_modify, List.getD_cons_succ]
      exact ih (by simpa using h)

/-- A symbol-preserving per-row rewrite does not change the result of the
symbol scan. -/
lemma find_symbol_idx_list_modify {s : String} {f : option_data_t → option_data_t}
    (hf : ∀ d, (f d).symbol = d.symbol) (i : ℕ) (l : List option_data_t) :
    find_symbol_idx s (list_modify f i l) = find_symbol_idx s l := by
  induction l generalizing i with
  | nil => cases i <;> rfl
  | cons a l ih =>
    cases i with
    | zero => simp [list_modify, find_symbol_idx, hf a]
    | succ n => simp [list_modify, find_symbol_idx, ih n]

/-! ### Claim C5 -/

/-- A zeroed row satisfies the invariant (its flag is clear). -/
lemma row_invariant_zero (s : String) : row_invariant (option_data_zero s) := by
  intro h
  simp [option_data_zero] at h

/-- A trade/quote upsert preserves the row invariant: it never touches
`analytics_valid`, `time_to_expiry` or `underlying_price`, and it only
turns `has_trade` / `has_quote` on. -/
lemma row_invariant_upsert (e : msg_event_t) (d : option_data_t)
    (h : row_invariant d) : row_invariant (e.upsert d) := by
  cases e with
  | trade sym p sz ex t c env =>
    intro hv
    simp only [msg_event_t.upsert] at hv ⊢
    rcases h hv with ⟨h1, h2, _⟩
    exact ⟨h1, h2, Or.inl (by simp)⟩
  | quote sym bp bsz bx ap asz ax t c env =>
    intro hv
    simp only [msg_event_t.upsert] at hv ⊢
    rcases h hv with ⟨h1, h2, _⟩
    exact ⟨h1, h2, Or.inr (by simp)⟩

/-- The analytics pass establishes the row invariant outright: it either
clears the flag, or sets it together with a positive underlying price, a
positive time to expiry, and a reference price drawn from a present trade
or quote. -/
lemma row_invariant_analytics_row_update (env : analytics_env_t) (r : ℝ)
    (d : option_data_t) : row_invariant (analytics_row_update env r d) := by
  rcases hp : parse_option_details d.symbol with _ | details
  · simp only [analytics_row_update, hp]
    intro hv; simp at hv
  · simp only [analytics_row_update, hp]
    split
    next hu => intro hv; simp at hv
    next hu =>
      split
      next ht => intro hv; simp at hv
      next ht =>
        split
        next heq => intro hv; simp at hv
        next price heq =>
          intro hv
          push_neg at hu ht
          refine ⟨le_of_lt ht, hu, ?_⟩
          by_cases h1 : d.has_trade = true ∧ d.last_price > 0
          · exact Or.inl h1.1
          · rw [if_neg h1] at heq
            by_cases h2 : d.has_quote = true ∧ d.bid_price > 0 ∧ d.ask_price > 0
            · exact Or.inr h2.1
            · rw [if_neg h2] at heq; simp at heq

/-- `find_or_create_option_data` preserves the table invariant. -/
lemma table_invariant_find_or_create {s : String} {client client2 : alpaca_client_t}
    {i : ℕ} (h : table_invariant client)
    (hfc : find_or_create_option_data s client = some (i, client2)) :
    table_invariant client2 := by
  unfold find_or_create_option_data at hfc
  cases hidx : find_symbol_idx s client.option_data with
  | some j => rw [hidx] at hfc; simp at hfc; rw [← hfc.2]; exact h
  | none =>
    rw [hidx] at hfc
    by_cases hlen : client.option_data.length < MAX_SYMBOLS
    · rw [if_pos hlen] at hfc
      simp at hfc
      rw [← hfc.2]
      intro d hd
      rcases List.mem_append.mp hd with hmem | hmem
      · exact h d hmem
      · rw [List.mem_singleton.mp hmem]
        exact row_invariant_zero s
    · rw [if_neg hlen] at hfc; simp at hfc

/-- The upsert step preserves the table invariant. -/
lemma table_invariant_upsert (client : alpaca_client_t) (e : msg_event_t) (i : ℕ)
    (h : table_invariant client) :
    table_invariant { client with option_data := list_modify e.upsert i client.option_data } := by
  intro d hd
  rcases mem_list_modify hd with hmem | ⟨y, hy, hxy⟩
  · exact h d hmem
  · rw [hxy]; exact row_invariant_upsert e y (h y hy)

/-- The analytics step preserves the table invariant. -/
lemma table_invariant_calculate (client : alpaca_client_t) (idx : ℕ)
    (env : analytics_env_t) (h : table_invariant client) :
    table_invariant (calculate_option_analytics client idx env) := by
  cases hidx : find_symbol_idx (client.option_data.getD idx (option_data_zero "")).symbol
      client.option_data with
  | some j =>
    simp only [calculate_option_analytics, hidx]
    by_cases hth : env.now_ms - client.last_calc_time j < 100
    · rw [if_pos hth]; exact h
    · rw [if_neg hth]
      intro d hd
      simp only at hd
      rcases mem_list_modify hd with hmem | ⟨y, hy, hxy⟩
      · exact h d hmem
      · rw [hxy]; exact row_invariant_analytics_row_update env _ y
  | none =>
    simp only [calculate_option_analytics, hidx]
    intro d hd
    simp only at hd
    rcases mem_list_modify hd with hmem | ⟨y, hy, hxy⟩
    · exact h d hmem
    · rw [hxy]; exact row_invariant_analytics_row_update env _ y

/-- One message preserves the table invariant. -/
lemma table_invariant_process (client : alpaca_client_t) (e : msg_event_t)
    (h : table_invariant client) : table_invariant (process_event client e) := by
  unfold process_event
  by_cases hlen : e.symbol.length > 0
  · rw [if_pos hlen]
    cases hfc : find_or_create_option_data e.symbol client with
    | none => exact h
    | some p =>
      obtain ⟨idx, client1⟩ := p
      have h1 := table_invariant_find_or_create h hfc
      exact table_invariant_calculate _ idx e.env (table_invariant_upsert client1 e idx h1)
  · rw [if_neg hlen]; exact h

/-- C5, confirmed: after any sequence of trade/quote upserts and
analytics recomputations starting from the empty table, every row with
`analytics_valid` set has `time_to_expiry ≥ 0`, `underlying_price > 0`,
and at least one of `has_trade` / `has_quote` set. -/
theorem C5_analytics_valid_invariant (risk_free_rate : ℝ) (events : List msg_event_t) :
    table_invariant (run_events risk_free_rate events) := by
  unfold run_events
  have hgen : ∀ (evs : List msg_event_t) (s : alpaca_client_t), table_invariant s →
      table_invariant (evs.foldl process_event s) := by
    intro evs
    induction evs with
    | nil => intro s h; exact h
    | cons e tl ih =>
      intro s h
      exact ih _ (table_invariant_process s e h)
  apply hgen
  intro d hd
  simp [client_init] at hd

/-! ### Claim C6 -/

/-- The symbol scan fails on a table of rows all carrying some other
symbol. -/
lemma find_symbol_idx_replicate_none {s : String} {d : option_data_t}
    (h : (d.symbol == s) = false) (n : ℕ) :
    find_symbol_idx s (List.replicate n d) = none := by
  induction n with
  | zero => rfl
  | succ m ih => simp [List.replicate, find_symbol_idx, h, ih]

/-- A table at capacity: 100 rows, none carrying the incoming symbol. -/
noncomputable def c6_client : alpaca_client_t :=
  { option_data := List.replicate 100 (option_data_zero "KNOWN00")
    last_calc_time := fun _ => 0
    risk_free_rate := 0 }

/-- A quote for a symbol not present in the full table. -/
noncomputable def c6_event : msg_event_t :=
  .quote "UNKNOWN1" 1 1 "X" 2 1 "Y" "t0" "c0"
    { now_ms := 1000, underlying_price := 100, time_to_expiry := 1/4 }

/-- C6, counterexample: when a quote arrives for an unknown symbol and the
table already holds 100 rows, the entire client state is returned
unchanged — table size and rows are untouched, but so is everything else:
the code has no `CapacityExceeded` counter at all, so no counter
increments by 1 as the claim asserts. -/
theorem C6_counterexample_nothing_increments :
    c6_client.option_data.length = 100 ∧
    process_event c6_client c6_event = c6_client := by
  refine ⟨by simp [c6_client], ?_⟩
  have hfind : find_symbol_idx c6_event.symbol c6_client.option_data = none := by
    simp only [c6_event, msg_event_t.symbol, c6_client]
    exact find_symbol_idx_replicate_none (by decide) 100
  have hfull : ¬ c6_client.option_data.length < MAX_SYMBOLS := by
    simp [c6_client, MAX_SYMBOLS]
  unfold process_event
  rw [if_pos (by decide)]
  simp only [find_or_create_option_data, hfind, hfull, if_false]

/-- C6, amended: a quote or trade for a symbol not in the table while the
table holds `MAX_SYMBOLS` rows leaves the whole client state — size, rows,
throttle stamps — unchanged; the message is dropped silently.  There is no
`CapacityExceeded` counter in the code, so nothing increments. -/
theorem C6_amended_full_table_drops_silently (client : alpaca_client_t) (e : msg_event_t)
    (hfind : find_symbol_idx e.symbol client.option_data = none)
    (hfull : ¬ client.option_data.length < MAX_SYMBOLS) :
    process_event client e = client := by
  unfold process_event
  by_cases hlen : e.symbol.length > 0
  · rw [if_pos hlen]
    simp only [find_or_create_option_data, hfind, hfull, if_false]
  · rw [if_neg hlen]

/-- A second at-capacity table for the C6 witness. -/
noncomputable def c6w_client : alpaca_client_t :=
  { option_data := List.replicate 100 (option_data_zero "ROWSYMB")
    last_calc_time := fun _ => 0
    risk_free_rate := 1/20 }

/-- A trade for a symbol unknown to `c6w_client`. -/
noncomputable def c6w_event : msg_event_t :=
  .trade "OTHERSYM" 2 3 "X" "t1" "c1"
    { now_ms := 500, underlying_price := 50, time_to_expiry := 1/2 }

/-- Witness for the amended C6: the concrete full table and unknown-symbol
trade satisfy both hypotheses. -/
theorem C6_amended_full_table_drops_silently_witness :
    process_event c6w_client c6w_event = c6w_client :=
  C6_amended_full_table_drops_silently c6w_client c6w_event
    (by
      simp only [c6w_event, msg_event_t.symbol, c6w_client]
      exact find_symbol_idx_replicate_none (by decide) 100)
    (by simp [c6w_client, MAX_SYMBOLS])

/-! ### Claim C9 -/

/-- The trade/quote upsert never changes the row's symbol. -/
lemma upsert_symbol (e : msg_event_t) (d : option_data_t) :
    (e.upsert d).symbol = d.symbol := by
  cases e <;> rfl

/-- C9, confirmed: when a message arrives for a contract already in the
table and fewer than 100 monotonic-clock milliseconds have elapsed since
that row's last analytics stamp, processing the message performs exactly
the upsert on that row and nothing else; the upsert overwrites the
trade/quote slice (prices, sizes, exchanges, times, `has_trade` /
`has_quote`) and leaves `bs_analytics`, `analytics_valid`, `strike`,
`underlying_price`, `time_to_expiry` and `is_call` untouched. -/
theorem C9_throttled_upsert_frame (client : alpaca_client_t) (e : msg_event_t) (idx : ℕ)
    (hsym : 0 < e.symbol.length)
    (hfind : find_symbol_idx e.symbol client.option_data = some idx)
    (hthrottle : e.env.now_ms - client.last_calc_time idx < 100) :
    process_event client e =
      { client with option_data := list_modify e.upsert idx client.option_data } ∧
    (∀ d, (e.upsert d).bs_analytics = d.bs_analytics ∧
      (e.upsert d).analytics_valid = d.analytics_valid ∧
      (e.upsert d).strike = d.strike ∧
      (e.upsert d).underlying_price = d.underlying_price ∧
      (e.upsert d).time_to_expiry = d.time_to_expiry ∧
      (e.upsert d).is_call = d.is_call) ∧
    (∀ sym p sz ex ts cond env d, e = .trade sym p sz ex ts cond env →
      (e.upsert d).last_price = p ∧ (e.upsert d).last_size = sz ∧
      (e.upsert d).trade_exchange = ex ∧ (e.upsert d).trade_time = ts ∧
      (e.upsert d).trade_condition = cond ∧ (e.upsert d).has_trade = true) ∧
    (∀ sym bp bsz bx ap asz ax ts cond env d, e = .quote sym bp bsz bx ap asz ax ts cond env →
      (e.upsert d).bid_price = bp ∧ (e.upsert d).bid_size = bsz ∧
      (e.upsert d).bid_exchange = bx ∧ (e.upsert d).ask_price = ap ∧
      (e.upsert d).ask_size = asz ∧ (e.upsert d).ask_exchange = ax ∧
      (e.upsert d).quote_time = ts ∧ (e.upsert d).quote_condition = cond ∧
      (e.upsert d).has_quote = true) := by
  refine ⟨?_, ?_, ?_, ?_⟩
  · have hlt := find_symbol_idx_lt hfind
    have hsymrow : ((list_modify e.upsert idx client.option_data).getD idx
        (option_data_zero "")).symbol = e.symbol := by
      rw [getD_list_modify_self hlt, upsert_symbol, find_symbol_idx_getD hfind]
    have hfind2 : find_symbol_idx
        (((list_modify e.upsert idx client.option_data).getD idx
          (option_data_zero "")).symbol)
        (list_modify e.upsert idx client.option_data) = some idx := by
      rw [hsymrow, find_symbol_idx_list_modify (upsert_symbol e) idx, hfind]
    unfold process_event
    rw [if_pos hsym]
    simp only [find_or_create_option_data, hfind]
    simp only [calculate_option_analytics, hfind2]
    rw [if_pos hthrottle]
  · intro d; cases e <;> simp [msg_event_t.upsert]
  · intro sym p sz ex ts cond env d heq
    subst heq; simp [msg_event_t.upsert]
  · intro sym bp bsz bx ap asz ax ts cond env d heq
    subst heq; simp [msg_event_t.upsert]

/-- A one-row table whose row was last stamped at monotonic time 0. -/
noncomputable def c9_client : alpaca_client_t :=
  { option_data := [option_data_zero "AAPL250117C00150000"]
    last_calc_time := fun _ => 0
    risk_free_rate := 0 }

/-- A trade for the resident contract arriving at monotonic time 50 ms. -/
noncomputable def c9_event : msg_event_t :=
  .trade "AAPL250117C00150000" 5 2 "N" "ts" "cd"
    { now_ms := 50, underlying_price := 150, time_to_expiry := 1/10 }

/-- Witness for C9: the concrete one-row client and 50 ms-later trade
satisfy all three hypotheses. -/
theorem C9_throttled_upsert_frame_witness :
    process_event c9_client c9_event =
      { c9_client with option_data := list_modify c9_event.upsert 0 c9_client.option_data } :=
  (C9_throttled_upsert_frame c9_client c9_event 0 (by decide) (by decide) (by decide)).1

end AlpacaOptions
